import Mathlib

/-!
Verification development for a two-stage toolchain (assembler + tick-accurate
simulator) for a small 32-bit register machine.  The Python source consists of
three modules (`isa.py`, `processor.py`, `translation.py`); this file gives a
shallow embedding of the relevant data model and operations and settles a set
of behavioural claims against it.

Modelling conventions:
* Host-language numeric values are modelled by `PyVal`, an exact fraction
  (integer numerator, positive denominator, not necessarily reduced) with
  cross-multiplication comparison and arithmetic.  Integers embed with
  denominator one; the true division used by the ALU `DIV` operation produces
  exact fractions.  The host language's float-vs-int distinction (and float
  rounding) is not tracked; every value built without division has
  denominator exactly one.
* Host-language exceptions are modelled explicitly by the `PyError` type; a
  raised exception propagates, and the surrounding state at the moment of the
  raise is preserved (mutations performed before the raise are kept).
* Host-language `while` loops on numbers are modelled by structurally
  recursive functions with an explicit iteration budget that is proved to
  dominate the number of iterations the loop can perform.
* String-valued enums compare equal to their value strings in the host
  language; the embedding identifies each enum member with its variant.
-/

set_option maxHeartbeats 1000000
set_option maxRecDepth 10000
set_option synthInstance.maxSize 20000
set_option synthInstance.maxHeartbeats 1000000

namespace CA

/-- Exceptions of the host language that the simulator code can raise or
catch.  `stopIteration` signals `HLT`, `eofError` is the intended
input-exhausted signal, `memoryError` the write-to-read-only fault. -/
inductive PyError where
  | indexError
  | keyError
  | eofError
  | memoryError
  | stopIteration
  | typeError
  | valueError
  | zeroDivisionError
  | assertionError
  deriving DecidableEq, Repr

instance {ε α : Type} [DecidableEq ε] [DecidableEq α] : DecidableEq (Except ε α) := fun x y =>
  match x, y with
  | .ok a, .ok b =>
    if h : a = b then isTrue (by rw [h]) else isFalse (fun hc => by cases hc; exact h rfl)
  | .ok _, .error _ => isFalse (fun hc => by cases hc)
  | .error _, .ok _ => isFalse (fun hc => by cases hc)
  | .error e, .error f =>
    if h : e = f then isTrue (by rw [h]) else isFalse (fun hc => by cases hc; exact h rfl)

/-! ## Exact numeric values -/

/-- An exact host-language numeric value: the fraction `num / den`.
All constructors and operations below keep `den` positive; integer values
(everything that never went through a division) have `den = 1` exactly. -/
structure PyVal where
  num : Int
  den : Int
  deriving DecidableEq, Repr

/-- Embed an integer. -/
def PyVal.ofInt (n : Int) : PyVal := ⟨n, 1⟩

instance (n : Nat) : OfNat PyVal n := ⟨⟨(n : Int), 1⟩⟩

instance : Neg PyVal := ⟨fun a => ⟨-a.num, a.den⟩⟩

instance : Add PyVal := ⟨fun a b => ⟨a.num * b.den + b.num * a.den, a.den * b.den⟩⟩

instance : Sub PyVal := ⟨fun a b => ⟨a.num * b.den - b.num * a.den, a.den * b.den⟩⟩

instance : Mul PyVal := ⟨fun a b => ⟨a.num * b.num, a.den * b.den⟩⟩

/-- Exact division (the sign of the divisor's numerator is moved into the
numerator so the denominator stays positive).  Only reached with a nonzero
divisor; the host language raises `ZeroDivisionError` first otherwise. -/
instance : Div PyVal := ⟨fun a b =>
  if 0 ≤ b.num then ⟨a.num * b.den, a.den * b.num⟩
  else ⟨-(a.num * b.den), -(a.den * b.num)⟩⟩

instance : LT PyVal := ⟨fun a b => a.num * b.den < b.num * a.den⟩

instance : LE PyVal := ⟨fun a b => a.num * b.den ≤ b.num * a.den⟩

instance (a b : PyVal) : Decidable (a < b) :=
  inferInstanceAs (Decidable (a.num * b.den < b.num * a.den))

instance (a b : PyVal) : Decidable (a ≤ b) :=
  inferInstanceAs (Decidable (a.num * b.den ≤ b.num * a.den))

/-- The rational value denoted by a `PyVal` (used to state properties; the
machine itself computes on the fraction representation). -/
def PyVal.toRat (v : PyVal) : ℚ := (v.num : ℚ) / (v.den : ℚ)

@[simp] theorem PyVal.num_ofNat (n : Nat) :
    (no_index (OfNat.ofNat n) : PyVal).num = OfNat.ofNat n := rfl

@[simp] theorem PyVal.den_ofNat (n : Nat) :
    (no_index (OfNat.ofNat n) : PyVal).den = 1 := rfl

@[simp] theorem PyVal.num_ofInt (n : Int) : (PyVal.ofInt n).num = n := rfl

@[simp] theorem PyVal.den_ofInt (n : Int) : (PyVal.ofInt n).den = 1 := rfl

@[simp] theorem PyVal.num_neg (a : PyVal) : (-a).num = -a.num := rfl

@[simp] theorem PyVal.den_neg (a : PyVal) : (-a).den = a.den := rfl

@[simp] theorem PyVal.num_add (a b : PyVal) :
    (a + b).num = a.num * b.den + b.num * a.den := rfl

@[simp] theorem PyVal.den_add (a b : PyVal) : (a + b).den = a.den * b.den := rfl

@[simp] theorem PyVal.num_sub (a b : PyVal) :
    (a - b).num = a.num * b.den - b.num * a.den := rfl

@[simp] theorem PyVal.den_sub (a b : PyVal) : (a - b).den = a.den * b.den := rfl

@[simp] theorem PyVal.num_mul (a b : PyVal) : (a * b).num = a.num * b.num := rfl

@[simp] theorem PyVal.den_mul (a b : PyVal) : (a * b).den = a.den * b.den := rfl

@[simp] theorem PyVal.lt_def (a b : PyVal) :
    a < b ↔ a.num * b.den < b.num * a.den := Iff.rfl

@[simp] theorem PyVal.le_def (a b : PyVal) :
    a ≤ b ↔ a.num * b.den ≤ b.num * a.den := Iff.rfl

/-- Host-language floor of an exact value (`den` positive). -/
def pyFloor (v : PyVal) : Int := Int.fdiv v.num v.den

/-! ## ISA enumerations (`isa.py`) -/

/-- Opcode enum from `isa.py` (string values are the mnemonics). -/
inductive Opcode where
  | DECLARE
  | LD
  | SV
  | ADD
  | SUB
  | MUL
  | DIV
  | MOD
  | CMP
  | OUT
  | IN
  | JMP
  | JE
  | JNE
  | IRET
  | STI
  | CLI
  | HLT
  deriving DecidableEq, Repr

/-- Register enum from `isa.py`. -/
inductive Register where
  | R0
  | R1
  | R2
  | R3
  | R4
  | PC
  | SP
  deriving DecidableEq, Repr

/-- Operand-type enum from `isa.py` (values "reg" and "const"). -/
inductive OperandType where
  | REGISTER
  | CONSTANT
  deriving DecidableEq, Repr

/-- ALU-operation enum from `processor.py` (its string values are
incidental, per the design notes, and are not modelled). -/
inductive AluOperations where
  | DIV
  | MOD
  | CMP
  | ADD
  | INC
  | DEC
  | SUB
  | MUL
  | LEFT
  | RIGHT
  | NOP
  deriving DecidableEq, Repr

/-- `opcode2alu` dictionary of `processor.py`: `.get` returns `None`
(modelled by `none`) for opcodes outside the six arithmetic ones. -/
def opcode2alu : Opcode → Option AluOperations
  | .DIV => some .DIV
  | .MOD => some .MOD
  | .CMP => some .CMP
  | .ADD => some .ADD
  | .SUB => some .SUB
  | .MUL => some .MUL
  | _ => none

/-- `DATA_MEM_SZ` constant of `processor.py`. -/
def DATA_MEM_SZ : Nat := 10000

/-! ## The ALU operation table and the overflow wrap (`processor.py`) -/

/-- The lambda table `Alu.operations` of `processor.py`.  `DIV` is the host
language's true division (exact on fractions); `MOD` is the host language's
floor remainder `l - ⌊l / r⌋ * r` (sign of the divisor); both raise
`ZeroDivisionError` on a zero right operand. -/
def aluOperations (op : AluOperations) (left right : PyVal) : Except PyError PyVal :=
  match op with
  | .DIV => if right.num = 0 then .error .zeroDivisionError else .ok (left / right)
  | .MOD => if right.num = 0 then .error .zeroDivisionError else
      .ok (left - PyVal.ofInt (pyFloor (left / right)) * right)
  | .CMP => .ok (left - right)
  | .ADD => .ok (left + right)
  | .INC => .ok (left + PyVal.ofInt 1)
  | .DEC => .ok (left - PyVal.ofInt 1)
  | .SUB => .ok (left - right)
  | .MUL => .ok (left * right)
  | .LEFT => .ok left
  | .RIGHT => .ok right
  | .NOP => .ok (PyVal.ofInt 0)

/-- One iteration of the first wrap loop of `DataPath.execute_alu`:
`res = -2147483648 + (res - 2147483647)`. -/
def stepHigh (r : PyVal) : PyVal := -(2147483648 : PyVal) + (r - 2147483647)

/-- One iteration of the second wrap loop of `DataPath.execute_alu`:
`res = 2147483647 - (res + 2147483648)`. -/
def stepLow (r : PyVal) : PyVal := (2147483647 : PyVal) - (r + 2147483648)

/-- The loop `while res > 2147483647: ...` with an explicit iteration
budget (each iteration lowers the value by `2 ^ 32 - 1 ≥ 1`, so a budget of
`max(num, 0)` iterations reaches the fixpoint, see `whileHigh_le`). -/
def iterHigh : Nat → PyVal → PyVal
  | 0, r => r
  | n + 1, r => if (2147483647 : PyVal) < r then iterHigh n (stepHigh r) else r

/-- The loop `while res < -2147483648: ...` with an explicit iteration
budget (a single iteration always exits the loop, see `stepLow_not_low`). -/
def iterLow : Nat → PyVal → PyVal
  | 0, r => r
  | n + 1, r => if r < -(2147483648 : PyVal) then iterLow n (stepLow r) else r

/-- Iteration budget for the first wrap loop. -/
def highFuel (r : PyVal) : Nat := r.num.toNat

/-- The first wrap loop of `DataPath.execute_alu` run to completion. -/
def whileHigh (r : PyVal) : PyVal := iterHigh (highFuel r) r

/-- The second wrap loop of `DataPath.execute_alu` run to completion (two
budgeted iterations suffice because one pass of the body always leaves the
loop guard false). -/
def whileLow (r : PyVal) : PyVal := iterLow 2 r

/-- The complete wrap applied by `DataPath.execute_alu` to a raw ALU result:
first the overflow loop, then the underflow loop, in source order. -/
def execWrap (r : PyVal) : PyVal := whileLow (whileHigh r)

/-- One pass of the underflow-loop body always leaves the loop guard false,
so the body runs at most once: the budget of `whileLow` is sufficient. -/
theorem stepLow_not_low (r : PyVal) (hd : 0 < r.den) (h : r < -(2147483648 : PyVal)) :
    ¬ stepLow r < -(2147483648 : PyVal) := by
  simp only [stepLow, PyVal.lt_def, PyVal.num_sub, PyVal.den_sub, PyVal.num_add,
    PyVal.den_add, PyVal.num_neg, PyVal.den_neg, PyVal.num_ofNat, PyVal.den_ofNat] at h ⊢
  intro hc
  nlinarith

theorem stepHigh_den (r : PyVal) : (stepHigh r).den = r.den := by
  simp only [stepHigh, PyVal.den_add, PyVal.den_sub, PyVal.den_neg, PyVal.den_ofNat]
  ring

theorem stepHigh_num (r : PyVal) : (stepHigh r).num = r.num - 4294967295 * r.den := by
  simp only [stepHigh, PyVal.num_add, PyVal.num_sub, PyVal.num_neg, PyVal.den_neg,
    PyVal.num_ofNat, PyVal.den_ofNat, PyVal.den_sub]
  ring

theorem iterHigh_le (n : Nat) : ∀ r : PyVal, 0 < r.den →
    r.num ≤ 2147483647 * r.den + n * (4294967295 * r.den) →
    iterHigh n r ≤ (2147483647 : PyVal) := by
  induction n with
  | zero =>
      intro r hd h
      simp only [iterHigh, PyVal.le_def, PyVal.num_ofNat, PyVal.den_ofNat]
      simpa using h
  | succ k ih =>
      intro r hd h
      simp only [iterHigh]
      by_cases hr : (2147483647 : PyVal) < r
      · simp only [hr, if_true]
        apply ih (stepHigh r)
        · rw [stepHigh_den]; exact hd
        · rw [stepHigh_num, stepHigh_den]
          push_cast at h
          nlinarith
      · simp only [hr, if_false]
        simp only [PyVal.lt_def, PyVal.num_ofNat, PyVal.den_ofNat, not_lt] at hr
        simp only [PyVal.le_def, PyVal.num_ofNat, PyVal.den_ofNat]
        linarith

/-- The iteration budget of `whileHigh` is sufficient: on a value with a
positive denominator the loop always terminates at or below `INT32_MAX`. -/
theorem whileHigh_le (r : PyVal) (hd : 0 < r.den) :
    whileHigh r ≤ (2147483647 : PyVal) := by
  apply iterHigh_le _ _ hd
  rcases le_or_lt r.num 0 with h | h
  · have : (0 : Int) ≤ (highFuel r : Int) * (4294967295 * r.den) := by positivity
    nlinarith
  · have h2 : (highFuel r : Int) = r.num := by
      simp [highFuel, Int.toNat_of_nonneg (le_of_lt h)]
    rw [h2]
    nlinarith

/-! ## Host-language list indexing

List subscripts accept negative indices (counting from the end), raise
`TypeError` on a non-integral subscript and `IndexError` out of range. -/

/-- Resolve a list subscript against a list of length `len`. -/
def pyIdx (len : Nat) (q : PyVal) : Except PyError Nat :=
  if q.den ≠ 1 then .error .typeError
  else
    let i := q.num
    if 0 ≤ i ∧ i < (len : ℤ) then .ok i.toNat
    else if -(len : ℤ) ≤ i ∧ i < 0 then .ok (i + (len : ℤ)).toNat
    else .error .indexError

/-- `l[q]`. -/
def pyGet {α : Type} (l : List α) (q : PyVal) : Except PyError α :=
  match pyIdx l.length q with
  | .error e => .error e
  | .ok n =>
    match l.get? n with
    | some a => .ok a
    | none => .error .indexError

/-- `l[q] = a`. -/
def pySet {α : Type} (l : List α) (q : PyVal) (a : α) : Except PyError (List α) :=
  match pyIdx l.length q with
  | .error e => .error e
  | .ok n => .ok (l.set n a)

/-- `chr`: integral argument in the Unicode range, else `TypeError` /
`ValueError`; returns the code point. -/
def pyChr (q : PyVal) : Except PyError Nat :=
  if q.den ≠ 1 then .error .typeError
  else if 0 ≤ q.num ∧ q.num ≤ 1114111 then .ok q.num.toNat
  else .error .valueError

/-! ## Register file and datapath (`processor.py`) -/

/-- The seven register cells of the `RegFile.registers` dictionary. -/
structure RegBank where
  r0 : PyVal
  r1 : PyVal
  r2 : PyVal
  r3 : PyVal
  r4 : PyVal
  pc : PyVal
  sp : PyVal
  deriving DecidableEq, Repr

def RegBank.get (b : RegBank) : Register → PyVal
  | .R0 => b.r0
  | .R1 => b.r1
  | .R2 => b.r2
  | .R3 => b.r3
  | .R4 => b.r4
  | .PC => b.pc
  | .SP => b.sp

def RegBank.set (b : RegBank) : Register → PyVal → RegBank
  | .R0, v => { b with r0 := v }
  | .R1, v => { b with r1 := v }
  | .R2, v => { b with r2 := v }
  | .R3, v => { b with r3 := v }
  | .R4, v => { b with r4 := v }
  | .PC, v => { b with pc := v }
  | .SP, v => { b with sp := v }

/-- Initial register bank: all zero, `SP = DATA_MEM_SZ`. -/
def RegBank.init : RegBank :=
  { r0 := 0, r1 := 0, r2 := 0, r3 := 0, r4 := 0, pc := 0,
    sp := PyVal.ofInt (DATA_MEM_SZ : Int) }

/-- The `RegFile` class: register values plus the three selector latches. -/
structure RegFile where
  registers : RegBank
  operand_1 : Register
  operand_2 : Register
  output : Register
  deriving DecidableEq, Repr

/-- The `Alu` class state: the two data inputs and the zero flag
(the operation table is the function `aluOperations` above). -/
structure Alu where
  left : PyVal
  right : PyVal
  zero_flag : Bool
  deriving DecidableEq, Repr

/-- An element of the output buffer: `print` appends the raw bus value in
integer mode and the character with that code point otherwise. -/
inductive OutItem where
  | int (q : PyVal)
  | ch (codepoint : Nat)
  deriving DecidableEq, Repr

/-- The `DataPath` class state. -/
structure DataPath where
  data_memory : List PyVal
  reg_file : RegFile
  alu : Alu
  alu_bus : PyVal
  output_bus : PyVal
  data_bus : PyVal
  input_buffer : List Char
  input_pointer : Nat
  output_buffer : List OutItem
  output_int : Bool
  deriving DecidableEq, Repr

/-- `DataPath.latch_registers(operand_1, operand_2=R0, output=R1)`: writes
the two operand selectors, then raises the write-to-read-only fault
(`MemoryError`) if `R0` is selected as output, else writes the output
selector.  Call sites pass the source call's effective arguments,
defaults included. -/
def latch_registers (operand_1 operand_2 output : Register) (dp : DataPath) :
    DataPath × Except PyError Unit :=
  let dp := { dp with
    reg_file := { dp.reg_file with operand_1 := operand_1, operand_2 := operand_2 } }
  if output = Register.R0 then (dp, .error .memoryError)
  else ({ dp with reg_file := { dp.reg_file with output := output } }, .ok ())

/-- `DataPath.latch_alu(const_operand=None)`. -/
def latch_alu (const_operand : Option PyVal) (dp : DataPath) : DataPath :=
  let alu1 := { dp.alu with left := dp.reg_file.registers.get dp.reg_file.operand_1 }
  let alu2 :=
    match const_operand with
    | some c => { alu1 with right := c }
    | none => { alu1 with right := dp.reg_file.registers.get dp.reg_file.operand_2 }
  { dp with alu := alu2, data_bus := dp.reg_file.registers.get dp.reg_file.operand_2 }

/-- `DataPath.latch_output()`: `regs[output] ← output_bus`. -/
def latch_output (dp : DataPath) : DataPath :=
  { dp with reg_file := { dp.reg_file with
      registers := dp.reg_file.registers.set dp.reg_file.output dp.output_bus } }

/-- `DataPath.execute_alu(instruction)`: apply the selected operation to the
ALU inputs, wrap the result with the two `while` loops, set the zero flag
to `res == 0` and drive both result buses. -/
def execute_alu (instruction : AluOperations) (dp : DataPath) :
    DataPath × Except PyError Unit :=
  match aluOperations instruction dp.alu.left dp.alu.right with
  | .error e => (dp, .error e)
  | .ok raw =>
    let res := execWrap raw
    let alu2 := { dp.alu with zero_flag := decide (res.num = 0) }
    ({ dp with alu := alu2, alu_bus := res, output_bus := res }, .ok ())

/-- `DataPath.write()`: `data_memory[alu_bus] ← data_bus`. -/
def DataPath.write (dp : DataPath) : DataPath × Except PyError Unit :=
  match pySet dp.data_memory dp.alu_bus dp.data_bus with
  | .error e => (dp, .error e)
  | .ok mem => ({ dp with data_memory := mem }, .ok ())

/-- `DataPath.read()`: `output_bus ← data_memory[alu_bus]`. -/
def DataPath.read (dp : DataPath) : DataPath × Except PyError Unit :=
  match pyGet dp.data_memory dp.alu_bus with
  | .error e => (dp, .error e)
  | .ok v => ({ dp with output_bus := v }, .ok ())

/-- `DataPath.print()`: append `alu_bus` to the output buffer, as an integer
value in integer mode and via `chr` otherwise. -/
def DataPath.print (dp : DataPath) : DataPath × Except PyError Unit :=
  if dp.output_int then
    ({ dp with output_buffer := dp.output_buffer ++ [.int dp.alu_bus] }, .ok ())
  else
    match pyChr dp.alu_bus with
    | .error e => (dp, .error e)
    | .ok n => ({ dp with output_buffer := dp.output_buffer ++ [.ch n] }, .ok ())

/-- `DataPath.input()`: the body indexes `input_buffer` (a list), whose
out-of-range access raises `IndexError`; the surrounding handler only
rewrites `KeyError` into `EOFError`, so the `IndexError` escapes. -/
def DataPath.input (dp : DataPath) : DataPath × Except PyError Unit :=
  let body : Except PyError PyVal :=
    match dp.input_buffer.get? dp.input_pointer with
    | some c => .ok (PyVal.ofInt (c.toNat : Int))
    | none => .error .indexError
  match body with
  | .error .keyError => (dp, .error .eofError)
  | .error e => (dp, .error e)
  | .ok v => ({ dp with output_bus := v, input_pointer := dp.input_pointer + 1 }, .ok ())

/-! ## Instructions and the control unit -/

/-- The value found in an instruction record's `arg2` slot together with its
`arg2_type` tag (the tag and the slot are always set consistently, by the
translator and by `read_code`): a register name under tag "reg", an
integer under tag "const". -/
inductive Arg2V where
  | reg (r : Register)
  | const (n : Int)
  deriving DecidableEq, Repr

/-- An instruction record; optional slots mirror the optional dictionary
keys of the serialized form. -/
structure Instr where
  opcode : Opcode
  arg1 : Option Register := none
  arg2 : Option Arg2V := none
  out : Option Register := none
  deriving DecidableEq, Repr

/-- The whole simulator state: `ControlUnit` fields plus its `DataPath`. -/
structure Machine where
  dp : DataPath
  program : List Instr
  int_queue : List (Nat × Char)
  interrupt_vector : List PyVal
  tick : Nat
  is_interrupted : Bool
  int_enabled : Bool
  instr_cnt : Nat
  instr : Option Instr
  deriving DecidableEq, Repr

/-- State-and-exception monad over `Machine`: a raised exception stops the
computation but keeps all mutations made before the raise. -/
def PyM (α : Type) : Type := Machine → Machine × Except PyError α

def PyM.pure {α : Type} (a : α) : PyM α := fun m => (m, .ok a)

def PyM.bind {α β : Type} (x : PyM α) (f : α → PyM β) : PyM β := fun m =>
  match x m with
  | (m2, .ok a) => f a m2
  | (m2, .error e) => (m2, .error e)

instance : Monad PyM where
  pure := PyM.pure
  bind := PyM.bind

def throwPy {α : Type} (e : PyError) : PyM α := fun m => (m, .error e)

def getMach : PyM Machine := fun m => (m, .ok m)

def modifyMach (f : Machine → Machine) : PyM Unit := fun m => (f m, .ok ())

/-- Run a datapath method inside the machine monad. -/
def liftDp (f : DataPath → DataPath × Except PyError Unit) : PyM Unit := fun m =>
  let r := f m.dp
  ({ m with dp := r.1 }, r.2)

/-- Run an exception-free datapath method inside the machine monad. -/
def liftDpPure (f : DataPath → DataPath) : PyM Unit := fun m =>
  ({ m with dp := f m.dp }, .ok ())

/-- Dictionary access `instr["arg1"]` (raises `KeyError` when absent). -/
def Instr.getArg1 (i : Instr) : PyM Register :=
  match i.arg1 with
  | some r => PyM.pure r
  | none => throwPy .keyError

/-- Dictionary access `instr["out"]`. -/
def Instr.getOut (i : Instr) : PyM Register :=
  match i.out with
  | some r => PyM.pure r
  | none => throwPy .keyError

/-- Dictionary access `instr["arg2_type"]`. -/
def Instr.getArg2T (i : Instr) : PyM OperandType :=
  match i.arg2 with
  | some (.reg _) => PyM.pure .REGISTER
  | some (.const _) => PyM.pure .CONSTANT
  | none => throwPy .keyError

/-- Dictionary access `instr["arg2"]` in a register position. -/
def Instr.getArg2Reg (i : Instr) : PyM Register :=
  match i.arg2 with
  | some (.reg r) => PyM.pure r
  | _ => throwPy .keyError

/-- Dictionary access `instr["arg2"]` in a constant position. -/
def Instr.getArg2Const (i : Instr) : PyM PyVal :=
  match i.arg2 with
  | some (.const n) => PyM.pure (PyVal.ofInt n)
  | _ => throwPy .keyError

/-- `ControlUnit.tick()`. -/
def tickM : PyM Unit := modifyMach fun m => { m with tick := m.tick + 1 }

/-- `self.int_enabled = (opcode == Opcode.STI)` (the `STI`/`CLI` branch). -/
def setIntEnabled (b : Bool) : PyM Unit := modifyMach fun m => { m with int_enabled := b }

/-- `ControlUnit.latch_program_counter()`: `regs[PC] += 1`. -/
def latch_program_counter : PyM Unit := modifyMach fun m =>
  { m with dp := { m.dp with reg_file := { m.dp.reg_file with
      registers := m.dp.reg_file.registers.set .PC
        (m.dp.reg_file.registers.get .PC + PyVal.ofInt 1) } } }

/-- `min(self.int_queue.keys())` (only consulted on a non-empty queue). -/
def minKeys (q : List (Nat × Char)) : Nat :=
  match q with
  | [] => 0
  | p :: ps => ps.foldl (fun a b => Nat.min a b.1) p.1

/-- Dictionary lookup by key (keys are unique). -/
def dictGet (q : List (Nat × Char)) (k : Nat) : Option Char :=
  (q.find? (fun p => p.1 == k)).map (fun p => p.2)

/-- `del` of one key (keys are unique, so filtering is the deletion). -/
def dictDel (q : List (Nat × Char)) (k : Nat) : List (Nat × Char) :=
  q.filter (fun p => p.1 != k)

/-- The admission guard at the top of
`ControlUnit.decode_and_execute_instruction`: interrupts enabled, no
interrupt in progress, pending queue non-empty, and the current tick at or
past the smallest key. -/
def intGuard (m : Machine) : Bool :=
  m.int_enabled && !m.is_interrupted && !m.int_queue.isEmpty &&
    decide (minKeys m.int_queue ≤ m.tick)

/-- The interrupt-admission block (`processor.py` lines 185-206): pop the
earliest-key interrupt, push `PC`, decrement `SP`, load `PC` through the
interrupt vector, enqueue the payload into the input buffer and set the
in-interrupt flag. -/
def interruptPhase : PyM Unit := do
  let m ← getMach
  if intGuard m then
    let interrupt ← (match dictGet m.int_queue (minKeys m.int_queue) with
      | some c => PyM.pure c
      | none => throwPy .keyError)
    modifyMach fun m2 => { m2 with int_queue := dictDel m2.int_queue (minKeys m2.int_queue) }
    liftDp (latch_registers .SP .PC .R1)
    liftDpPure (latch_alu none)
    liftDp (execute_alu .LEFT)
    liftDp DataPath.write
    tickM
    liftDp (latch_registers .SP .R0 .SP)
    liftDpPure (latch_alu none)
    liftDp (execute_alu .DEC)
    liftDpPure latch_output
    tickM
    liftDp (latch_registers .R0 .R0 .PC)
    let m3 ← getMach
    let vec0 ← (match m3.interrupt_vector.get? 0 with
      | some v => PyM.pure v
      | none => throwPy .indexError)
    liftDpPure (latch_alu (some vec0))
    liftDp (execute_alu .RIGHT)
    liftDp DataPath.read
    liftDpPure latch_output
    tickM
    modifyMach fun m4 => { m4 with
      dp := { m4.dp with input_buffer := m4.dp.input_buffer ++ [interrupt] },
      is_interrupted := true }
  else
    PyM.pure ()

/-- Fetch, decode and dispatch of one instruction (`processor.py` lines
208-308), without the interrupt-admission block. -/
def executePhase : PyM Unit := do
  let m ← getMach
  let instr ← (match pyGet m.program (m.dp.reg_file.registers.get .PC) with
    | .ok i => PyM.pure i
    | .error e => throwPy e)
  modifyMach fun m2 => { m2 with instr := some instr, instr_cnt := m2.instr_cnt + 1 }
  let opcode := instr.opcode
  if opcode = .HLT then
    throwPy .stopIteration
  else if opcode = .IRET then do
    liftDp (latch_registers .SP .R0 .SP)
    liftDpPure (latch_alu none)
    liftDp (execute_alu .INC)
    liftDpPure latch_output
    tickM
    liftDp (latch_registers .SP .R0 .PC)
    liftDpPure (latch_alu none)
    liftDp (execute_alu .LEFT)
    liftDp DataPath.read
    liftDpPure latch_output
    tickM
    modifyMach fun m2 => { m2 with is_interrupted := false }
  else if opcode = .JNE ∨ opcode = .JE ∨ opcode = .JMP then do
    if opcode ≠ .JMP then do
      let r1 ← instr.getArg1
      liftDp (latch_registers r1 .R0 .R1)
      liftDpPure (latch_alu none)
      liftDp (execute_alu .CMP)
      tickM
    let m2 ← getMach
    if (opcode == .JMP) || (opcode == .JE && m2.dp.alu.zero_flag)
        || (opcode == .JNE && !m2.dp.alu.zero_flag) then do
      let t ← instr.getArg2T
      if t = .CONSTANT then do
        liftDp (latch_registers .R0 .R0 .PC)
        let c ← instr.getArg2Const
        liftDpPure (latch_alu (some c))
      else do
        let r2 ← instr.getArg2Reg
        liftDp (latch_registers .R0 r2 .PC)
        liftDpPure (latch_alu none)
      liftDp (execute_alu .RIGHT)
      liftDpPure latch_output
      tickM
    else
      latch_program_counter
  else if opcode = .OUT then do
    let t ← instr.getArg2T
    if t = .CONSTANT then do
      liftDp (latch_registers .R0 .R0 .R1)
      let c ← instr.getArg2Const
      liftDpPure (latch_alu (some c))
    else do
      let r2 ← instr.getArg2Reg
      liftDp (latch_registers .R0 r2 .R1)
      liftDpPure (latch_alu none)
    liftDp (execute_alu .RIGHT)
    liftDp DataPath.print
    tickM
    latch_program_counter
  else if opcode = .IN then do
    let ro ← instr.getArg2Reg
    liftDp (latch_registers .R0 .R0 ro)
    liftDpPure (latch_alu none)
    liftDp (execute_alu .NOP)
    liftDp DataPath.input
    liftDpPure latch_output
    tickM
    latch_program_counter
  else if opcode = .ADD ∨ opcode = .CMP ∨ opcode = .MUL ∨ opcode = .DIV
      ∨ opcode = .MOD ∨ opcode = .SUB then do
    let t ← instr.getArg2T
    if t = .REGISTER then do
      let r1 ← instr.getArg1
      let r2 ← instr.getArg2Reg
      let ro ← instr.getOut
      liftDp (latch_registers r1 r2 ro)
      liftDpPure (latch_alu none)
    else do
      let r1 ← instr.getArg1
      let ro ← instr.getOut
      liftDp (latch_registers r1 .R0 ro)
      let c ← instr.getArg2Const
      liftDpPure (latch_alu (some c))
    let aop ← (match opcode2alu opcode with
      | some a => PyM.pure a
      | none => throwPy .keyError)
    liftDp (execute_alu aop)
    liftDpPure latch_output
    tickM
    latch_program_counter
  else if opcode = .LD then do
    let t ← instr.getArg2T
    if t = .REGISTER then do
      let r2 ← instr.getArg2Reg
      let ro ← instr.getOut
      liftDp (latch_registers r2 .R0 ro)
      liftDpPure (latch_alu none)
    else do
      let ro ← instr.getOut
      liftDp (latch_registers .R0 .R0 ro)
      let c ← instr.getArg2Const
      liftDpPure (latch_alu (some c))
    liftDp (execute_alu .RIGHT)
    liftDp DataPath.read
    liftDpPure latch_output
    tickM
    latch_program_counter
  else if opcode = .SV then do
    let t ← instr.getArg2T
    if t = .REGISTER then do
      let r2 ← instr.getArg2Reg
      let r1 ← instr.getArg1
      liftDp (latch_registers r2 r1 .R1)
      liftDpPure (latch_alu none)
      liftDp (execute_alu .LEFT)
    else do
      let r1 ← instr.getArg1
      liftDp (latch_registers .R0 r1 .R1)
      let c ← instr.getArg2Const
      liftDpPure (latch_alu (some c))
      liftDp (execute_alu .RIGHT)
    liftDp DataPath.write
    tickM
    latch_program_counter
  else if opcode = .STI ∨ opcode = .CLI then do
    setIntEnabled (decide (opcode = .STI))
    tickM
    latch_program_counter
  else
    latch_program_counter

/-- `ControlUnit.decode_and_execute_instruction()`: admission check, then
fetch/decode/dispatch. -/
def decode_and_execute_instruction : PyM Unit := do
  interruptPhase
  executePhase

/-! ## The simulation driver (`simulation` in `processor.py`) -/

/-- The driver loop: `assert limit > instr_counter`, execute one
instruction, increment the local counter, repeat.  The loop only ends by
an exception; the triple returned is the machine, the exception, and the
value of the local instruction counter at that point.  The first argument
is the remaining budget `limit - instr_counter`, so the assertion fires
exactly when it reaches zero. -/
def simLoopGo : Nat → Nat → Machine → Machine × PyError × Nat
  | 0, ic, m => (m, .assertionError, ic)
  | fuel + 1, ic, m =>
    match decode_and_execute_instruction m with
    | (m2, .error e) => (m2, e, ic)
    | (m2, .ok _) => simLoopGo fuel (ic + 1) m2

def simLoop (limit : Nat) (m : Machine) : Machine × PyError × Nat :=
  simLoopGo limit 0 m

/-- The `try`/`except` of `simulation`: `EOFError`, `MemoryError` and
`StopIteration` end the run cleanly (a warning is logged, which the model
does not track) and the output buffer accumulated so far is returned with
the two counters; any other exception propagates out of `simulation`.
The source joins the buffer into one string; the model returns the
buffer itself. -/
def runCaught (limit : Nat) (m0 : Machine) : Except PyError (List OutItem × Nat × Nat) :=
  match simLoop limit m0 with
  | (mf, e, ic) =>
    match e with
    | .eofError => .ok (mf.dp.output_buffer, ic, mf.tick)
    | .memoryError => .ok (mf.dp.output_buffer, ic, mf.tick)
    | .stopIteration => .ok (mf.dp.output_buffer, ic, mf.tick)
    | e2 => .error e2

/-- Data-memory initialisation of `simulation`: a `DATA_MEM_SZ + 2` array
whose prefix is copied from the artifact data. -/
def initDataMemory (data : List Int) : Except PyError (List PyVal) :=
  if data.length ≤ DATA_MEM_SZ + 2 then
    .ok (data.map PyVal.ofInt ++ List.replicate (DATA_MEM_SZ + 2 - data.length) (PyVal.ofInt 0))
  else .error .indexError

/-- The initial machine `simulation` constructs from an artifact, an
interrupt schedule and the output mode. -/
def buildMachine (code : List Instr) (data : List Int) (q : List (Nat × Char))
    (output_int : Bool) : Except PyError Machine :=
  match initDataMemory data with
  | .error e => .error e
  | .ok mem => .ok
    { dp :=
      { data_memory := mem
        reg_file := { registers := RegBank.init, operand_1 := .R0, operand_2 := .R0, output := .R1 }
        alu := { left := 0, right := 0, zero_flag := true }
        alu_bus := 0, output_bus := 0, data_bus := 0
        input_buffer := [], input_pointer := 0, output_buffer := []
        output_int := output_int }
      program := code, int_queue := q, interrupt_vector := [PyVal.ofInt 0]
      tick := 0, is_interrupted := false, int_enabled := false
      instr_cnt := 0, instr := none }

/-- `simulation(program, interrupt_queue, limit, output_int)`. -/
def simulation (code : List Instr) (data : List Int) (q : List (Nat × Char))
    (limit : Nat) (output_int : Bool) : Except PyError (List OutItem × Nat × Nat) :=
  match buildMachine code data q output_int with
  | .error e => .error e
  | .ok m0 => runCaught limit m0

/-- `str.split("\\n")` (structural, over the character list). -/
def splitLinesGo : List Char → List Char → List (List Char)
  | [], cur => [cur.reverse]
  | c :: cs, cur =>
    if c == Char.ofNat 10 then cur.reverse :: splitLinesGo cs []
    else splitLinesGo cs (c :: cur)

def pySplitLines (s : String) : List String := (splitLinesGo s.data []).map String.mk

/-- `line.strip()`. -/
def pyStrip (s : String) : String :=
  String.mk (((s.data.dropWhile Char.isWhitespace).reverse.dropWhile Char.isWhitespace).reverse)

/-- Decimal value of a validated digit string. -/
def digitsVal (cs : List Char) : Nat := cs.foldl (fun a c => a * 10 + (c.toNat - 48)) 0

/-- `str(n)` for a natural number (the first argument is an iteration
budget that dominates the digit count). -/
def natReprGo : Nat → Nat → List Char → List Char
  | 0, _, acc => acc
  | fuel + 1, n, acc =>
    let d := Char.ofNat (48 + n % 10)
    let n2 := n / 10
    if n2 = 0 then d :: acc else natReprGo fuel n2 (d :: acc)

def natRepr (n : Nat) : String := String.mk (natReprGo (n + 1) n [])


/-! ## Artifact serialization (`isa.py`)

`write_code` serializes the artifact with the host language's JSON library
and `read_code` parses it back, coercing every enum-valued field into its
closed enum and every data cell to an integer.  The JSON text encoding
itself is the library's (out of scope per the design); the model works on
the JSON tree.  A string-valued enum member serializes as its value
string. -/

/-- JSON trees (only the shapes the artifact uses). -/
inductive Json where
  | str (s : String)
  | int (n : Int)
  | arr (xs : List Json)
  | obj (fields : List (String × Json))
  deriving Repr

/-- The enum's value string (`Opcode.HLT` is "halt"). -/
def Opcode.value : Opcode → String
  | .DECLARE => "declare"
  | .LD => "ld"
  | .SV => "sv"
  | .ADD => "add"
  | .SUB => "sub"
  | .MUL => "mul"
  | .DIV => "div"
  | .MOD => "mod"
  | .CMP => "cmp"
  | .OUT => "out"
  | .IN => "in"
  | .JMP => "jmp"
  | .JE => "je"
  | .JNE => "jne"
  | .IRET => "iret"
  | .STI => "sti"
  | .CLI => "cli"
  | .HLT => "halt"

/-- The enum constructor-by-value `Opcode(s)` (`none` models `ValueError`). -/
def Opcode.ofValue : String → Option Opcode
  | "declare" => some .DECLARE
  | "ld" => some .LD
  | "sv" => some .SV
  | "add" => some .ADD
  | "sub" => some .SUB
  | "mul" => some .MUL
  | "div" => some .DIV
  | "mod" => some .MOD
  | "cmp" => some .CMP
  | "out" => some .OUT
  | "in" => some .IN
  | "jmp" => some .JMP
  | "je" => some .JE
  | "jne" => some .JNE
  | "iret" => some .IRET
  | "sti" => some .STI
  | "cli" => some .CLI
  | "halt" => some .HLT
  | _ => none

def Register.value : Register → String
  | .R0 => "r0"
  | .R1 => "r1"
  | .R2 => "r2"
  | .R3 => "r3"
  | .R4 => "r4"
  | .PC => "pc"
  | .SP => "sp"

def Register.ofValue : String → Option Register
  | "r0" => some .R0
  | "r1" => some .R1
  | "r2" => some .R2
  | "r3" => some .R3
  | "r4" => some .R4
  | "pc" => some .PC
  | "sp" => some .SP
  | _ => none

def OperandType.value : OperandType → String
  | .REGISTER => "reg"
  | .CONSTANT => "const"

def OperandType.ofValue : String → Option OperandType
  | "reg" => some .REGISTER
  | "const" => some .CONSTANT
  | _ => none

/-- Left-to-right effectful map: the first raised exception escapes, as in
the source's mutation loops. -/
def mapExcept {ε α β : Type} (f : α → Except ε β) : List α → Except ε (List β)
  | [] => .ok []
  | x :: xs =>
    match f x with
    | .error e => .error e
    | .ok y =>
      match mapExcept f xs with
      | .error e => .error e
      | .ok ys => .ok (y :: ys)

/-- Dictionary access `d[k]` on a JSON object. -/
def pyDictGet (fields : List (String × Json)) (k : String) : Except PyError Json :=
  match fields.find? (fun p => p.1 == k) with
  | some p => .ok p.2
  | none => .error .keyError

/-- `int(cell)` on a JSON value: integers pass through, strings are parsed
as (optionally signed) decimal integers, anything else is an error. -/
def pyIntOfJson : Json → Except PyError Int
  | .int n => .ok n
  | .str s =>
    (match (pyStrip s).data with
     | [] => .error .valueError
     | c :: rest =>
       if c == Char.ofNat 45 then
         if rest ≠ [] ∧ rest.all Char.isDigit then
           .ok (-(Int.ofNat (digitsVal rest)))
         else .error .valueError
       else if (c :: rest).all Char.isDigit then
         .ok (Int.ofNat (digitsVal (c :: rest)))
       else .error .valueError)
  | _ => .error .typeError

/-- Parse an optional register-valued field (`Register(instr[k])` when the
key is present). -/
def parseRegField (fields : List (String × Json)) (k : String) :
    Except PyError (Option Register) :=
  match fields.find? (fun p => p.1 == k) with
  | none => .ok none
  | some p =>
    match p.2 with
    | .str s =>
      match Register.ofValue s with
      | some r => .ok (some r)
      | none => .error .valueError
    | _ => .error .valueError

/-- Parse the `arg2_type`/`arg2` pair: under tag "reg" the operand is
coerced with `Register(...)`, under tag "const" with `int(...)`.  When
`arg2_type` is absent nothing is coerced (a raw `arg2` value without its
tag is outside the artifact schema and is not represented). -/
def parseArg2 (fields : List (String × Json)) : Except PyError (Option Arg2V) :=
  match fields.find? (fun p => p.1 == "arg2_type") with
  | none => .ok none
  | some p =>
    match p.2 with
    | .str s =>
      match OperandType.ofValue s with
      | none => .error .valueError
      | some .REGISTER =>
        (match pyDictGet fields "arg2" with
         | .error e => .error e
         | .ok (.str rs) =>
           (match Register.ofValue rs with
            | some r => .ok (some (.reg r))
            | none => .error .valueError)
         | .ok _ => .error .valueError)
      | some .CONSTANT =>
        (match pyDictGet fields "arg2" with
         | .error e => .error e
         | .ok v =>
           (match pyIntOfJson v with
            | .error e => .error e
            | .ok n => .ok (some (.const n))))
    | _ => .error .valueError

/-- Coerce one serialized instruction record (the body of the `for instr in
code` loop of `read_code`). -/
def parseInstr (j : Json) : Except PyError Instr :=
  match j with
  | .obj fields =>
    (match pyDictGet fields "opcode" with
     | .error e => .error e
     | .ok (.str s) =>
       (match Opcode.ofValue s with
        | none => .error .valueError
        | some opc =>
          (match parseRegField fields "arg1" with
           | .error e => .error e
           | .ok a1 =>
             (match parseArg2 fields with
              | .error e => .error e
              | .ok a2 =>
                (match parseRegField fields "out" with
                 | .error e => .error e
                 | .ok o => .ok { opcode := opc, arg1 := a1, arg2 := a2, out := o }))))
     | .ok _ => .error .valueError)
  | _ => .error .typeError

/-- An artifact in the §3 data-model sense: a code list of instruction
records and an integer data image. -/
structure Artifact where
  code : List Instr
  data : List Int
  deriving DecidableEq, Repr

/-- Serialize one instruction record with the keys its opcode class uses. -/
def instrToJson (i : Instr) : Json :=
  .obj ([("opcode", .str i.opcode.value)]
    ++ (match i.arg1 with
        | some r => [("arg1", .str r.value)]
        | none => [])
    ++ (match i.arg2 with
        | some (.reg r) => [("arg2", .str r.value), ("arg2_type", .str "reg")]
        | some (.const n) => [("arg2", .int n), ("arg2_type", .str "const")]
        | none => [])
    ++ (match i.out with
        | some r => [("out", .str r.value)]
        | none => []))

/-- `write_code`: the JSON tree the artifact serializes to. -/
def write_code (a : Artifact) : Json :=
  .obj [("code", .arr (a.code.map instrToJson)), ("data", .arr (a.data.map Json.int))]

/-- `read_code`: look up the two top-level keys, coerce every data cell
with `int(...)`, then coerce every instruction's enum fields. -/
def read_code (j : Json) : Except PyError Artifact :=
  match j with
  | .obj fields =>
    (match pyDictGet fields "code" with
     | .error e => .error e
     | .ok cj =>
       (match pyDictGet fields "data" with
        | .error e => .error e
        | .ok dj =>
          (match cj, dj with
           | .arr cs, .arr ds =>
             (match mapExcept pyIntOfJson ds with
              | .error e => .error e
              | .ok data =>
                (match mapExcept parseInstr cs with
                 | .error e => .error e
                 | .ok code => .ok { code := code, data := data }))
           | _, _ => .error .typeError)))
  | _ => .error .typeError

theorem opcode_ofValue_value (o : Opcode) : Opcode.ofValue o.value = some o := by
  cases o <;> rfl

theorem register_ofValue_value (r : Register) : Register.ofValue r.value = some r := by
  cases r <;> rfl

/-- Deserializing a serialized instruction record restores it field by
field. -/
theorem parseInstr_instrToJson (i : Instr) : parseInstr (instrToJson i) = .ok i := by
  obtain ⟨opc, a1, a2, o⟩ := i
  rcases a1 with _ | r1 <;> rcases a2 with _ | (⟨r2⟩ | ⟨n⟩) <;> rcases o with _ | ro <;>
    simp [parseInstr, instrToJson, pyDictGet, parseRegField, parseArg2, List.find?,
      opcode_ofValue_value, register_ofValue_value, OperandType.ofValue, pyIntOfJson]

theorem mapExcept_roundtrip {ε α β : Type} (f : β → Except ε α) (g : α → β)
    (h : ∀ x, f (g x) = .ok x) (l : List α) : mapExcept f (l.map g) = .ok l := by
  induction l with
  | nil => rfl
  | cons x xs ih => simp [mapExcept, h, ih]

/-! ## The translator (`translation.py`)

`translate` makes two passes over the source lines.  Pass 1 records label
addresses and builds the data image; pass 2 emits the instruction records.
A final `HLT` record is appended after both passes. -/

/-- Section-state enum of `translation.py`. -/
inductive SectionState where
  | DATA
  | TEXT
  deriving DecidableEq, Repr

/-- The exceptions `translate` can raise.  Constructors carry the
interpolated argument of the corresponding `SyntaxError` message;
`indexError` and `keyError` model the runtime exceptions the pass loops
can raise themselves. -/
inductive TransError where
  | unknownSection (s : String)
  | duplicateLabel (s : String)
  | noActiveSection
  | declArity
  | invalidData (s : String)
  | unknownDataInstr (s : String)
  | dataLabelUse (s : String)
  | badTerm (s : String)
  | arity (c : Opcode)
  | outNotRegister
  | constPosition
  | arg1NotRegister
  | inArgNotRegister (c : Opcode)
  | dataNotRegister
  | unsupported (c : Opcode)
  | vectorArity
  | vectorNum
  | vectorAddr
  | unknownCommand (s : String)
  | indexError
  | keyError
  deriving DecidableEq, Repr

/-- `INTERRUPTION_VECTOR_SZ` constant of `isa.py`. -/
def INTERRUPTION_VECTOR_SZ : Nat := 1

/-- `str2register` table. -/
def str2register : String → Option Register := Register.ofValue

/-- `str2section` table. -/
def str2section : String → Option SectionState
  | "data" => some .DATA
  | "text" => some .TEXT
  | _ => none

/-- `str2opcode` table (mnemonic to opcode; no entry for `DECLARE`). -/
def str2opcode : String → Option Opcode
  | "ld" => some .LD
  | "sv" => some .SV
  | "in" => some .IN
  | "out" => some .OUT
  | "add" => some .ADD
  | "sub" => some .SUB
  | "mul" => some .MUL
  | "div" => some .DIV
  | "mod" => some .MOD
  | "cmp" => some .CMP
  | "jmp" => some .JMP
  | "je" => some .JE
  | "jne" => some .JNE
  | "iret" => some .IRET
  | "sti" => some .STI
  | "cli" => some .CLI
  | "halt" => some .HLT
  | _ => none

/-- A single or double quote character (the character class of the
tokenizing pattern). -/
def isQuoteChar (c : Char) : Bool := c == Char.ofNat 39 || c == Char.ofNat 34

/-- The quote-aware whitespace split
`re.split(pattern, line)` with the lookahead pattern of `translation.py`:
the line is split at every maximal whitespace run that is followed by an
evenly many quote characters up to the end of the line (so whitespace
inside a quoted literal is kept).  Empty fields appear at a leading or
trailing split, exactly as the library produces them.
`q` is the number of quote characters remaining in `rest` (head included);
`skipping` is true while inside a whitespace run that split. -/
def splitGo : (rest : List Char) → (q : Nat) → (cur : List Char) → (skipping : Bool) →
    List (List Char)
  | [], _, cur, _ => [cur.reverse]
  | c :: cs, q, cur, skipping =>
    if c.isWhitespace then
      if q % 2 = 0 then
        if skipping then splitGo cs q [] true
        else cur.reverse :: splitGo cs q [] true
      else splitGo cs q (c :: cur) false
    else
      splitGo cs (if isQuoteChar c then q - 1 else q) (c :: cur) false

/-- Tokenize one line as the `re.split` call does. -/
def pySplitTokens (s : String) : List String :=
  (splitGo s.data (s.data.countP (fun c => isQuoteChar c)) [] false).map
    (fun cs => String.mk cs)

/-- The comment-removal loop: it iterates `i` over the indices of the
original list while truncating the list it indexes, so a comment token
anywhere but the last position makes the next iteration's `terms[i]` an
out-of-range access.  First argument is the number of remaining
iterations. -/
def stripCommentsGo : Nat → Nat → List String → Except TransError (List String)
  | 0, _, ts => .ok ts
  | k + 1, i, ts =>
    match ts.get? i with
    | none => .error .indexError
    | some t =>
      match t.data with
      | [] => .error .indexError
      | c :: _ =>
        if c == ';' then stripCommentsGo k (i + 1) (ts.take i)
        else stripCommentsGo k (i + 1) ts

/-- `for i in range(len(terms)): ... if terms[i][0] == ';': terms = terms[0:i]`. -/
def stripComments (ts : List String) : Except TransError (List String) :=
  stripCommentsGo ts.length 0 ts

/-- Python `s[0:-n]`. -/
def strDropLast (s : String) (n : Nat) : String :=
  String.mk (s.data.take (s.data.length - n))

/-- Python `s[-1] == c` (false only reached on nonempty strings here). -/
def strLastIs (s : String) (c : Char) : Bool := s.data.getLast? == some c

/-- Python `s.isdigit()` (ASCII digits). -/
def isPyDigit (s : String) : Bool := !s.data.isEmpty && s.data.all Char.isDigit

/-- The character-literal test used by both passes:
`len(t) == 3 and t[0] == "'" and t[2] == "'"`; yields the middle
character's code point. -/
def charLit : String → Option Nat := fun s =>
  match s.data with
  | [a, b, c] => if a == Char.ofNat 39 && c == Char.ofNat 39 then some b.toNat else none
  | _ => none

/-- `int(s)` on a validated digit string. -/
def digitsToNat (s : String) : Nat := digitsVal s.data

/-- Association-list membership (`k in m.keys()`). -/
def assocMem (m : List (String × String)) (k : String) : Bool := m.any (fun p => p.1 == k)

/-- Association-list lookup (`m[k]`, guarded by membership at call sites). -/
def assocGet (m : List (String × String)) (k : String) : Option String :=
  (m.find? (fun p => p.1 == k)).map (fun p => p.2)

/-- The mutable state of pass 1. -/
structure Pass1State where
  labels : List (String × String)
  data_labels : List (String × String)
  data : List String
  instr_count : Nat
  data_count : Nat
  sec : Option SectionState
  deriving DecidableEq, Repr

/-- Tokenization and preprocessing of one pass-1 line: split, drop a
leading empty field, remove comments. -/
def pass1Prep (line : String) : Except TransError (List String) :=
  match pySplitTokens line with
  | [] => .error .indexError
  | t :: rest => stripComments (if t == "" then rest else t :: rest)

/-- The body of the pass-1 loop after preprocessing, starting at the
`section` test.  The duplicate-label test runs on every line that reaches
it — label definition or not — comparing the first term with its final
character removed against both label namespaces. -/
def pass1Body (st : Pass1State) (terms : List String) : Except TransError Pass1State :=
  match terms.head? with
  | none => .error .indexError
  | some t0 =>
    if t0 == "section" then
      match terms.get? 1 with
      | none => .error .indexError
      | some t1 =>
        match str2section t1 with
        | none => .error (.unknownSection t1)
        | some s => .ok { st with sec := some s }
    else if assocMem st.labels (strDropLast t0 1) || assocMem st.data_labels (strDropLast t0 1) then
      .error (.duplicateLabel (strDropLast t0 2))
    else
      match st.sec with
      | none => .error .noActiveSection
      | some .TEXT =>
        if terms.length == 1 && strLastIs t0 ':' then
          .ok { st with labels := st.labels ++ [(strDropLast t0 1, natRepr st.instr_count)] }
        else
          .ok { st with instr_count := st.instr_count + 1 }
      | some .DATA =>
        if terms.length == 1 && strLastIs t0 ':' then
          .ok { st with data_labels := st.data_labels ++ [(strDropLast t0 1, natRepr st.data_count)] }
        else if t0 == "word" then
          if terms.length ≠ 2 then .error .declArity
          else
            match terms.get? 1 with
            | none => .error .indexError
            | some v =>
              match charLit v with
              | some n =>
                .ok { st with data := st.data ++ [natRepr n], data_count := st.data_count + 1 }
              | none =>
                if !isPyDigit v then .error (.invalidData v)
                else .ok { st with data := st.data ++ [v], data_count := st.data_count + 1 }
        else if t0 == "int" then .ok st
        else .error (.unknownDataInstr t0)

/-- One pass-1 line: empty lines are skipped, others preprocessed and
processed. -/
def pass1Line (st : Pass1State) (line : String) : Except TransError Pass1State :=
  if line == "" then .ok st
  else
    match pass1Prep line with
    | .error e => .error e
    | .ok terms => pass1Body st terms

/-- Pass 1 over all lines. -/
def pass1 : Pass1State → List String → Except TransError Pass1State
  | st, [] => .ok st
  | st, l :: ls =>
    match pass1Line st l with
    | .error e => .error e
    | .ok st2 => pass1 st2 ls

/-- The mutable state of pass 2 (the label maps from pass 1 are read-only
there; `sec` is inherited from where pass 1 left it). -/
structure Pass2State where
  code : List Instr
  data : List String
  sec : Option SectionState
  instr_count : Nat
  deriving DecidableEq, Repr

/-- The tail of the operand-substitution loop body of pass 2 (text
section): character-literal conversion, then the register-or-integer
validity test. -/
def substFinish (t : String) : Except TransError String :=
  let t2 :=
    match charLit t with
    | some n => natRepr n
    | none => t
  if !(str2register t2).isSome && !isPyDigit t2 then .error (.badTerm t2)
  else .ok t2

/-- One operand of a text-section line: resolve a code label, resolve a
data label (only under `LD`/`SV`), then finish. -/
def substOne (labels data_labels : List (String × String)) (command : Opcode)
    (term : String) : Except TransError String :=
  match assocGet labels term with
  | some v => substFinish v
  | none =>
    match assocGet data_labels term with
    | some v =>
      if command = .SV ∨ command = .LD then substFinish v
      else .error (.dataLabelUse term)
    | none => substFinish term

/-- Append one emitted instruction record and count it. -/
def pushInstr (st : Pass2State) (i : Instr) : Pass2State :=
  { st with code := st.code ++ [i], instr_count := st.instr_count + 1 }

/-- `int(s)` as a constant operand (operands were validated to be digit
strings before this point). -/
def digitsToInt (s : String) : Int := Int.ofNat (digitsToNat s)

/-- The per-opcode-class encoding of one text-section line: arity checks,
operand classification (register name or integer constant) and emission of
the instruction record.  `args` are the substituted operands
(`terms[1:]`). -/
def encodeInstr (command : Opcode) (args : List String) (st : Pass2State) :
    Except TransError Pass2State :=
  if command = .ADD ∨ command = .CMP ∨ command = .MUL ∨ command = .DIV
      ∨ command = .MOD ∨ command = .SUB then
    match args with
    | [a1, a2, a3] =>
      (match str2register a1 with
       | none => .error .outNotRegister
       | some rOut =>
         (match str2register a2 with
          | none => .error .constPosition
          | some rA =>
            (match str2register a3 with
             | none =>
               .ok (pushInstr st ⟨command, some rA, some (.const (digitsToInt a3)), some rOut⟩)
             | some rB =>
               .ok (pushInstr st ⟨command, some rA, some (.reg rB), some rOut⟩))))
    | _ => .error (.arity command)
  else if command = .JMP ∨ command = .OUT ∨ command = .IN then
    match args with
    | [a1] =>
      (match str2register a1 with
       | none =>
         if command = .IN then .error (.inArgNotRegister command)
         else .ok (pushInstr st ⟨command, none, some (.const (digitsToInt a1)), none⟩)
       | some r => .ok (pushInstr st ⟨command, none, some (.reg r), none⟩))
    | _ => .error (.arity command)
  else if command = .JE ∨ command = .JNE then
    match args with
    | [a1, a2] =>
      (match str2register a1 with
       | none => .error .arg1NotRegister
       | some r1 =>
         (match str2register a2 with
          | none =>
            .ok (pushInstr st ⟨command, some r1, some (.const (digitsToInt a2)), none⟩)
          | some r2 => .ok (pushInstr st ⟨command, some r1, some (.reg r2), none⟩)))
    | _ => .error (.arity command)
  else if command = .LD then
    match args with
    | [a1, a2] =>
      (match str2register a1 with
       | none => .error .outNotRegister
       | some rOut =>
         (match str2register a2 with
          | none =>
            .ok (pushInstr st ⟨command, none, some (.const (digitsToInt a2)), some rOut⟩)
          | some r2 => .ok (pushInstr st ⟨command, none, some (.reg r2), some rOut⟩)))
    | _ => .error (.arity command)
  else if command = .SV then
    match args with
    | [a1, a2] =>
      (match str2register a1 with
       | none => .error .dataNotRegister
       | some r1 =>
         (match str2register a2 with
          | none =>
            .ok (pushInstr st ⟨command, some r1, some (.const (digitsToInt a2)), none⟩)
          | some r2 => .ok (pushInstr st ⟨command, some r1, some (.reg r2), none⟩)))
    | _ => .error (.arity command)
  else if command = .IRET ∨ command = .CLI ∨ command = .STI ∨ command = .HLT then
    .ok (pushInstr st { opcode := command })
  else
    .error (.unsupported command)

/-- A text-section line of pass 2: skip label definitions, look the
mnemonic up (a dictionary access, so an unknown mnemonic raises `KeyError`
before the dead membership check below it), substitute the operands in
order, then encode. -/
def pass2Text (labels data_labels : List (String × String)) (st : Pass2State)
    (t0 : String) (terms : List String) : Except TransError Pass2State :=
  if terms.length == 1 && strLastIs t0 ':' then .ok st
  else
    match str2opcode t0 with
    | none => .error .keyError
    | some command =>
      match mapExcept (substOne labels data_labels command) terms.tail with
      | .error e => .error e
      | .ok args => encodeInstr command args st

/-- One operand of a data-section line of pass 2: only code labels are
substituted, with no further checks. -/
def substDataTerm (labels : List (String × String)) (t : String) : String :=
  (assocGet labels t).getD t

/-- A data-section line of pass 2: only `int` (interrupt-vector
declaration) lines have an effect; `word` and label lines were consumed by
pass 1. -/
def pass2Data (labels : List (String × String)) (st : Pass2State) (t0 : String)
    (terms : List String) : Except TransError Pass2State :=
  let args := terms.tail.map (substDataTerm labels)
  if t0 == "int" then
    match args with
    | [a1, a2] =>
      if !isPyDigit a1 || decide (INTERRUPTION_VECTOR_SZ - 1 < digitsToNat a1) then
        .error .vectorNum
      else if !isPyDigit a2 then .error .vectorAddr
      else
        if digitsToNat a1 < st.data.length then
          .ok { st with data := st.data.set (digitsToNat a1) a2 }
        else .error .indexError
    | _ => .error .vectorArity
  else .ok st

/-- One pass-2 line: skip empty lines, strip the line, tokenize, drop a
leading empty field, skip blank results, remove comments, then dispatch on
the section. -/
def pass2Line (labels data_labels : List (String × String)) (st : Pass2State)
    (line : String) : Except TransError Pass2State :=
  if line == "" then .ok st
  else
    let lineS := pyStrip line
    let terms0 := pySplitTokens lineS
    let terms1 :=
      match terms0 with
      | [] => []
      | t :: rest => if t == "" then rest else t :: rest
    if terms1.length == 0 || (terms1.length == 1 && terms1.head? == some "") then .ok st
    else
      match stripComments terms1 with
      | .error e => .error e
      | .ok terms =>
        match terms.head? with
        | none => .error .indexError
        | some t0 =>
          if t0 == "section" then
            match terms.get? 1 with
            | none => .error .indexError
            | some t1 =>
              match str2section t1 with
              | none => .error (.unknownSection t1)
              | some s => .ok { st with sec := some s }
          else
            match st.sec with
            | none => .error .noActiveSection
            | some .TEXT => pass2Text labels data_labels st t0 terms
            | some .DATA => pass2Data labels st t0 terms

/-- Pass 2 over all lines. -/
def pass2 (labels data_labels : List (String × String)) :
    Pass2State → List String → Except TransError Pass2State
  | st, [] => .ok st
  | st, l :: ls =>
    match pass2Line labels data_labels st l with
    | .error e => .error e
    | .ok st2 => pass2 labels data_labels st2 ls

/-- The artifact as `translate` builds it: instruction records plus the
data image, whose cells the source keeps as digit strings until
`read_code` coerces them. -/
structure TransArt where
  code : List Instr
  data : List String
  deriving DecidableEq, Repr

/-- `translate(script)`: pass 1, pass 2, then the unconditional final
`HLT` append. -/
def translate (script : String) : Except TransError TransArt :=
  let lines := pySplitLines script
  let st0 : Pass1State :=
    { labels := [], data_labels := [], data := List.replicate INTERRUPTION_VECTOR_SZ "0",
      instr_count := 0, data_count := INTERRUPTION_VECTOR_SZ, sec := none }
  match pass1 st0 lines with
  | .error e => .error e
  | .ok st1 =>
    match pass2 st1.labels st1.data_labels
        { code := [], data := st1.data, sec := st1.sec, instr_count := 0 } lines with
    | .error e => .error e
    | .ok st2 => .ok { code := st2.code ++ [{ opcode := .HLT }], data := st2.data }

/-! ## Generic facts about the step function

The monad applications below unfold one bind at a time; the `PF`
predicate and its instance-driven closure prove that a dispatch path
leaves the in-interrupt flag unchanged. -/

@[simp] theorem PyM.bind_apply {α β : Type} (x : PyM α) (f : α → PyM β) (m : Machine) :
    (x >>= f) m = match x m with
      | (m2, .ok a) => f a m2
      | (m2, .error e) => (m2, .error e) := rfl

@[simp] theorem getMach_apply (m : Machine) : getMach m = (m, .ok m) := rfl

@[simp] theorem pure_apply {α : Type} (a : α) (m : Machine) : PyM.pure a m = (m, .ok a) := rfl

@[simp] theorem pureM_apply {α : Type} (a : α) (m : Machine) :
    (pure (f := PyM) a) m = (m, .ok a) := rfl

@[simp] theorem modifyMach_apply (f : Machine → Machine) (m : Machine) :
    modifyMach f m = (f m, .ok ()) := rfl

/-- `p` leaves the in-interrupt flag unchanged. -/
def PF {α : Type} (p : PyM α) : Prop :=
  ∀ m : Machine, ((p m).1).is_interrupted = m.is_interrupted

class PFC {α : Type} (p : PyM α) : Prop where
  pf : PF p

theorem pf_of {α : Type} (p : PyM α) [h : PFC p] (m : Machine) :
    ((p m).1).is_interrupted = m.is_interrupted := h.pf m

instance pfcBind {α β : Type} (x : PyM α) (f : α → PyM β) [hx : PFC x]
    [hf : ∀ a, PFC (f a)] : PFC (x >>= f) := by
  constructor
  intro m
  show ((PyM.bind x f) m).1.is_interrupted = m.is_interrupted
  unfold PyM.bind
  rcases h : x m with ⟨m2, r⟩
  have h2 : m2.is_interrupted = m.is_interrupted := by
    have hq := hx.pf m
    rw [h] at hq
    exact hq
  cases r with
  | ok a =>
    simp only
    rw [(hf a).pf m2, h2]
  | error e =>
    simpa using h2

instance pfcPure {α : Type} (a : α) : PFC (PyM.pure a) := ⟨fun _ => rfl⟩

instance pfcPureM {α : Type} (a : α) : PFC (pure (f := PyM) a) := ⟨fun _ => rfl⟩

instance pfcThrow {α : Type} (e : PyError) : PFC (throwPy (α := α) e) := ⟨fun _ => rfl⟩

instance pfcGetMach : PFC getMach := ⟨fun _ => rfl⟩

instance pfcLiftDp (f : DataPath → DataPath × Except PyError Unit) : PFC (liftDp f) :=
  ⟨fun _ => rfl⟩

instance pfcLiftDpPure (f : DataPath → DataPath) : PFC (liftDpPure f) := ⟨fun _ => rfl⟩

instance pfcTick : PFC tickM := ⟨fun _ => rfl⟩

instance pfcSetIntEnabled (b : Bool) : PFC (setIntEnabled b) := ⟨fun _ => rfl⟩

instance pfcLpc : PFC latch_program_counter := ⟨fun _ => rfl⟩

instance pfcIte {α : Type} (c : Prop) [Decidable c] (p q : PyM α) [PFC p] [PFC q] :
    PFC (if c then p else q) := by
  by_cases h : c
  · simpa [h] using inferInstanceAs (PFC p)
  · simpa [h] using inferInstanceAs (PFC q)

instance pfcGetArg1 (i : Instr) : PFC i.getArg1 := by
  constructor; intro m; unfold Instr.getArg1; cases i.arg1 <;> rfl

instance pfcGetOut (i : Instr) : PFC i.getOut := by
  constructor; intro m; unfold Instr.getOut; cases i.out <;> rfl

instance pfcGetArg2T (i : Instr) : PFC i.getArg2T := by
  constructor; intro m; unfold Instr.getArg2T
  rcases i.arg2 with _ | (r | n) <;> rfl

instance pfcGetArg2Reg (i : Instr) : PFC i.getArg2Reg := by
  constructor; intro m; unfold Instr.getArg2Reg
  rcases i.arg2 with _ | (r | n) <;> rfl

instance pfcGetArg2Const (i : Instr) : PFC i.getArg2Const := by
  constructor; intro m; unfold Instr.getArg2Const
  rcases i.arg2 with _ | (r | n) <;> rfl

theorem RegBank.get_set_same (b : RegBank) (r : Register) (v : PyVal) :
    (b.set r v).get r = v := by
  cases r <;> rfl

theorem RegBank.get_set_ne (b : RegBank) (r r2 : Register) (v : PyVal) (h : r2 ≠ r) :
    (b.set r v).get r2 = b.get r2 := by
  cases r <;> cases r2 <;> first | rfl | exact absurd rfl h

/-- The fold computing `min(queue.keys())` returns a key of the queue and a
lower bound of all keys. -/
theorem foldl_min_spec (ps : List (Nat × Char)) : ∀ a : Nat,
    (ps.foldl (fun x b => Nat.min x b.1) a = a ∨
      ps.foldl (fun x b => Nat.min x b.1) a ∈ ps.map Prod.fst) ∧
    ps.foldl (fun x b => Nat.min x b.1) a ≤ a ∧
    ∀ k ∈ ps.map Prod.fst, ps.foldl (fun x b => Nat.min x b.1) a ≤ k := by
  induction ps with
  | nil =>
      intro a
      refine ⟨Or.inl rfl, le_refl a, ?_⟩
      intro k hk
      simp at hk
  | cons b ps ih =>
      intro a
      obtain ⟨hmem, hle, hall⟩ := ih (Nat.min a b.1)
      have hminl : Nat.min a b.1 ≤ a := Nat.min_le_left a b.1
      have hminr : Nat.min a b.1 ≤ b.1 := Nat.min_le_right a b.1
      have hmineq : Nat.min a b.1 = a ∨ Nat.min a b.1 = b.1 := by
        rcases Nat.le_total a b.1 with h | h
        · exact Or.inl (min_eq_left h)
        · exact Or.inr (min_eq_right h)
      simp only [List.foldl_cons, List.map_cons, List.mem_cons]
      refine ⟨?_, ?_, ?_⟩
      · rcases hmem with h | h
        · rw [h]
          rcases hmineq with h2 | h2
          · exact Or.inl h2
          · exact Or.inr (Or.inl h2)
        · exact Or.inr (Or.inr h)
      · exact le_trans hle hminl
      · intro k hk
        rcases hk with hkb | hk
        · subst hkb
          exact le_trans hle hminr
        · exact hall k hk

/-- `min(queue.keys())` is a key of the queue and the least one. -/
theorem minKeys_spec (q : List (Nat × Char)) (hq : q ≠ []) :
    minKeys q ∈ q.map Prod.fst ∧ ∀ k ∈ q.map Prod.fst, minKeys q ≤ k := by
  match q with
  | [] => exact absurd rfl hq
  | p :: ps =>
    obtain ⟨hmem, hle, hall⟩ := foldl_min_spec ps p.1
    simp only [minKeys, List.map_cons, List.mem_cons]
    refine ⟨?_, ?_⟩
    · rcases hmem with h | h
      · exact Or.inl h
      · exact Or.inr h
    · intro k hk
      rcases hk with hkp | hk
      · exact hkp ▸ hle
      · exact hall k hk

/-- When the admission guard fails — in particular whenever an interrupt is
already being handled — the admission block does nothing at all. -/
theorem interruptPhase_no_admission (m : Machine) (h : intGuard m = false) :
    interruptPhase m = (m, .ok ()) := by
  unfold interruptPhase
  simp only [PyM.bind_apply, getMach_apply, h, Bool.false_eq_true, reduceIte, pure_apply]

/-- A successful run of the admission block removes exactly the
earliest-key entry from the queue, appends its payload to the input
buffer, and raises the in-interrupt flag. -/
theorem interruptPhase_admits (m m2 : Machine) (c : Char)
    (hg : intGuard m = true)
    (hc : dictGet m.int_queue (minKeys m.int_queue) = some c)
    (hr : interruptPhase m = (m2, .ok ())) :
    m2.is_interrupted = true ∧
    m2.int_queue = dictDel m.int_queue (minKeys m.int_queue) ∧
    m2.dp.input_buffer = m.dp.input_buffer ++ [c] := by
  unfold interruptPhase at hr
  simp only [PyM.bind_apply, getMach_apply, hg, reduceIte, hc, pure_apply,
    modifyMach_apply, liftDp, liftDpPure, latch_registers, latch_alu, execute_alu,
    aluOperations, latch_output, DataPath.write, DataPath.read, tickM,
    reduceCtorEq] at hr
  rcases hw : pySet m.dp.data_memory (execWrap (m.dp.reg_file.registers.get Register.SP))
      (m.dp.reg_file.registers.get Register.PC) with e | mem <;>
    rw [hw] at hr <;>
    simp only [PyM.bind_apply, getMach_apply, pure_apply, modifyMach_apply, liftDp,
      liftDpPure, latch_registers, latch_alu, execute_alu, aluOperations, latch_output,
      DataPath.write, DataPath.read, tickM, throwPy, reduceIte, reduceCtorEq] at hr
  · exact absurd hr (by simp)
  rcases hv : m.interrupt_vector.get? 0 with _ | v <;>
    rw [hv] at hr <;>
    simp only [PyM.bind_apply, getMach_apply, pure_apply, modifyMach_apply, liftDp,
      liftDpPure, latch_registers, latch_alu, execute_alu, aluOperations, latch_output,
      DataPath.write, DataPath.read, tickM, throwPy, reduceIte, reduceCtorEq] at hr
  · exact absurd hr (by simp)
  rcases hrd : pyGet mem (execWrap v) with e | w <;>
    rw [hrd] at hr <;>
    simp only [PyM.bind_apply, getMach_apply, pure_apply, modifyMach_apply, liftDp,
      liftDpPure, latch_registers, latch_alu, execute_alu, aluOperations, latch_output,
      DataPath.write, DataPath.read, tickM, throwPy, reduceIte, reduceCtorEq] at hr
  · exact absurd hr (by simp)
  obtain ⟨h1, h2⟩ := Prod.mk.injEq .. |>.mp hr
  subst h1
  exact ⟨rfl, rfl, rfl⟩

/-- Every dispatch path of `executePhase` other than `IRET` leaves the
in-interrupt flag unchanged (in particular no dispatch path can clear it,
so only `IRET` ends interrupt handling). -/
theorem executePhase_flag (m : Machine) (i : Instr)
    (hfetch : pyGet m.program (m.dp.reg_file.registers.get .PC) = .ok i)
    (hni : i.opcode ≠ .IRET) :
    ((executePhase m).1).is_interrupted = m.is_interrupted := by
  unfold executePhase
  simp only [PyM.bind_apply, getMach_apply, hfetch, pure_apply, modifyMach_apply]
  cases hop : i.opcode <;> simp only [hop, reduceIte, ne_eq, reduceCtorEq,
      not_false_eq_true, or_false, false_or, or_self, opcode2alu, not_true,
      beq_self_eq_true, Bool.true_or, eq_self_iff_true] at hni ⊢ <;>
    first
      | exact absurd rfl hni
      | exact pf_of _ _


/-- The right-operand value an instruction's `arg2` denotes in machine `m`. -/
def arg2Val (a2 : Arg2V) (m : Machine) : PyVal :=
  match a2 with
  | .reg r => m.dp.reg_file.registers.get r
  | .const n => PyVal.ofInt n

/-- Run `n` instruction steps, stopping at the first exception. -/
def runSteps : Nat → Machine → Machine × Except PyError Unit
  | 0, m => (m, .ok ())
  | n + 1, m =>
    match decode_and_execute_instruction m with
    | (m2, .ok _) => runSteps n m2
    | (m2, .error e) => (m2, .error e)

theorem iterHigh_of_le (n : Nat) (r : PyVal) (h : ¬ (2147483647 : PyVal) < r) :
    iterHigh n r = r := by
  cases n <;> simp [iterHigh, h]

theorem iterLow_of_ge (n : Nat) (r : PyVal) (h : ¬ r < -(2147483648 : PyVal)) :
    iterLow n r = r := by
  cases n <;> simp [iterLow, h]

/-- The wrap is the identity on values already inside the 32-bit range. -/
theorem execWrap_id (r : PyVal) (hhi : ¬ (2147483647 : PyVal) < r)
    (hlo : ¬ r < -(2147483648 : PyVal)) : execWrap r = r := by
  unfold execWrap whileHigh whileLow
  rw [iterHigh_of_le _ _ hhi]
  exact iterLow_of_ge _ _ hlo

/-- The semantics of a dispatched `CMP`: the wrapped difference is written
to the instruction's output register, the zero flag records whether it is
zero, `PC` advances by one, and all other registers are untouched. -/
theorem cmp_dispatch (m : Machine) (i : Instr) (r1 : Register) (a2 : Arg2V) (ro : Register)
    (hfetch : pyGet m.program (m.dp.reg_file.registers.get .PC) = .ok i)
    (hop : i.opcode = .CMP) (ha1 : i.arg1 = some r1) (ha2 : i.arg2 = some a2)
    (ho : i.out = some ro) (hro0 : ro ≠ .R0) (hroPC : ro ≠ .PC) :
    (executePhase m).2 = .ok () ∧
    (executePhase m).1.dp.reg_file.registers.get ro =
      execWrap (m.dp.reg_file.registers.get r1 - arg2Val a2 m) ∧
    (executePhase m).1.dp.alu.zero_flag =
      decide ((execWrap (m.dp.reg_file.registers.get r1 - arg2Val a2 m)).num = 0) ∧
    (executePhase m).1.dp.reg_file.registers.get .PC =
      m.dp.reg_file.registers.get .PC + PyVal.ofInt 1 ∧
    (∀ r : Register, r ≠ ro → r ≠ .PC →
      (executePhase m).1.dp.reg_file.registers.get r = m.dp.reg_file.registers.get r) := by
  unfold executePhase
  cases a2 with
  | reg r2 =>
    simp only [PyM.bind_apply, getMach_apply, hfetch, pure_apply, pureM_apply,
      modifyMach_apply, hop,
      reduceIte, reduceCtorEq, or_false, false_or, or_self, ne_eq, not_false_eq_true,
      or_true, true_or, opcode2alu, Instr.getArg2T, Instr.getArg1, Instr.getArg2Reg,
      Instr.getArg2Const, Instr.getOut, ha1, ha2, ho, liftDp, liftDpPure, latch_registers,
      latch_alu, execute_alu, aluOperations, latch_output, tickM, latch_program_counter,
      hro0, arg2Val]
    refine ⟨trivial, ?_, trivial, ?_, ?_⟩
    · rw [RegBank.get_set_ne _ _ _ _ hroPC, RegBank.get_set_same]
    · rw [RegBank.get_set_same, RegBank.get_set_ne _ _ _ _ (Ne.symm hroPC)]
    · intro r hr hrPC
      rw [RegBank.get_set_ne _ _ _ _ hrPC, RegBank.get_set_ne _ _ _ _ hr]
  | const n =>
    simp only [PyM.bind_apply, getMach_apply, hfetch, pure_apply, pureM_apply,
      modifyMach_apply, hop,
      reduceIte, reduceCtorEq, or_false, false_or, or_self, ne_eq, not_false_eq_true,
      or_true, true_or, opcode2alu, Instr.getArg2T, Instr.getArg1, Instr.getArg2Reg,
      Instr.getArg2Const, Instr.getOut, ha1, ha2, ho, liftDp, liftDpPure, latch_registers,
      latch_alu, execute_alu, aluOperations, latch_output, tickM, latch_program_counter,
      hro0, arg2Val]
    refine ⟨trivial, ?_, trivial, ?_, ?_⟩
    · rw [RegBank.get_set_ne _ _ _ _ hroPC, RegBank.get_set_same]
    · rw [RegBank.get_set_same, RegBank.get_set_ne _ _ _ _ (Ne.symm hroPC)]
    · intro r hr hrPC
      rw [RegBank.get_set_ne _ _ _ _ hrPC, RegBank.get_set_ne _ _ _ _ hr]

/-- A dispatched `JMP` always writes the wrapped branch target to `PC`. -/
theorem jmp_dispatch (m : Machine) (i : Instr) (a2 : Arg2V)
    (hfetch : pyGet m.program (m.dp.reg_file.registers.get .PC) = .ok i)
    (hop : i.opcode = .JMP) (ha2 : i.arg2 = some a2) :
    (executePhase m).2 = .ok () ∧
    (executePhase m).1.dp.reg_file.registers.get .PC = execWrap (arg2Val a2 m) := by
  unfold executePhase
  cases a2 with
  | reg r2 =>
    simp only [PyM.bind_apply, getMach_apply, hfetch, pure_apply, pureM_apply,
      modifyMach_apply, hop,
      reduceIte, reduceCtorEq, or_false, false_or, or_self, ne_eq, not_false_eq_true,
      or_true, true_or, not_true, opcode2alu, Instr.getArg2T, Instr.getArg1,
      Instr.getArg2Reg, Instr.getArg2Const, Instr.getOut, ha2, liftDp, liftDpPure,
      latch_registers, latch_alu, execute_alu, aluOperations, latch_output, tickM,
      latch_program_counter, arg2Val, beq_self_eq_true, Bool.true_or, eq_self_iff_true]
    exact ⟨trivial, RegBank.get_set_same _ _ _⟩
  | const n =>
    simp only [PyM.bind_apply, getMach_apply, hfetch, pure_apply, pureM_apply,
      modifyMach_apply, hop,
      reduceIte, reduceCtorEq, or_false, false_or, or_self, ne_eq, not_false_eq_true,
      or_true, true_or, not_true, opcode2alu, Instr.getArg2T, Instr.getArg1,
      Instr.getArg2Reg, Instr.getArg2Const, Instr.getOut, ha2, liftDp, liftDpPure,
      latch_registers, latch_alu, execute_alu, aluOperations, latch_output, tickM,
      latch_program_counter, arg2Val, beq_self_eq_true, Bool.true_or, eq_self_iff_true]
    exact ⟨trivial, RegBank.get_set_same _ _ _⟩

/-- A dispatched `JE` first runs `CMP(regs[arg1], regs[R0])` and branches
exactly when the wrapped difference is zero; otherwise `PC` advances by
one. -/
theorem je_dispatch (m : Machine) (i : Instr) (r1 : Register) (a2 : Arg2V)
    (hfetch : pyGet m.program (m.dp.reg_file.registers.get .PC) = .ok i)
    (hop : i.opcode = .JE) (ha1 : i.arg1 = some r1) (ha2 : i.arg2 = some a2) :
    (executePhase m).2 = .ok () ∧
    ((execWrap (m.dp.reg_file.registers.get r1 - m.dp.reg_file.registers.get .R0)).num = 0 →
      (executePhase m).1.dp.reg_file.registers.get .PC = execWrap (arg2Val a2 m)) ∧
    (¬ (execWrap (m.dp.reg_file.registers.get r1 - m.dp.reg_file.registers.get .R0)).num = 0 →
      (executePhase m).1.dp.reg_file.registers.get .PC =
        m.dp.reg_file.registers.get .PC + PyVal.ofInt 1) := by
  unfold executePhase
  by_cases hz : (execWrap (m.dp.reg_file.registers.get r1 -
      m.dp.reg_file.registers.get .R0)).num = 0 <;>
  cases a2 <;>
    simp only [PyM.bind_apply, getMach_apply, hfetch, pure_apply, pureM_apply,
      modifyMach_apply, hop,
      reduceIte, reduceCtorEq, or_false, false_or, or_self, ne_eq, not_false_eq_true,
      or_true, true_or, not_true, opcode2alu, Instr.getArg2T, Instr.getArg1,
      Instr.getArg2Reg, Instr.getArg2Const, Instr.getOut, ha1, ha2, liftDp, liftDpPure,
      latch_registers, latch_alu, execute_alu, aluOperations, latch_output, tickM,
      latch_program_counter, arg2Val, beq_self_eq_true, Bool.true_or, Bool.false_or,
      Bool.or_false, Bool.or_true, Bool.true_and, Bool.false_and, Bool.and_true,
      Bool.and_false, Bool.not_true, Bool.not_false, Bool.or_eq_true, beq_iff_eq,
      eq_self_iff_true, hz, decide_True,
      decide_False, decide_eq_true_eq, not_false_eq_true] <;>
    refine ⟨trivial, ?_, ?_⟩ <;>
    first
      | exact fun _ => RegBank.get_set_same _ _ _
      | exact fun h => h.elim

/-- A dispatched `JNE` first runs `CMP(regs[arg1], regs[R0])` and branches
exactly when the wrapped difference is nonzero; otherwise `PC` advances by
one. -/
theorem jne_dispatch (m : Machine) (i : Instr) (r1 : Register) (a2 : Arg2V)
    (hfetch : pyGet m.program (m.dp.reg_file.registers.get .PC) = .ok i)
    (hop : i.opcode = .JNE) (ha1 : i.arg1 = some r1) (ha2 : i.arg2 = some a2) :
    (executePhase m).2 = .ok () ∧
    ((execWrap (m.dp.reg_file.registers.get r1 - m.dp.reg_file.registers.get .R0)).num = 0 →
      (executePhase m).1.dp.reg_file.registers.get .PC =
        m.dp.reg_file.registers.get .PC + PyVal.ofInt 1) ∧
    (¬ (execWrap (m.dp.reg_file.registers.get r1 - m.dp.reg_file.registers.get .R0)).num = 0 →
      (executePhase m).1.dp.reg_file.registers.get .PC = execWrap (arg2Val a2 m)) := by
  unfold executePhase
  by_cases hz : (execWrap (m.dp.reg_file.registers.get r1 -
      m.dp.reg_file.registers.get .R0)).num = 0 <;>
  cases a2 <;>
    simp only [PyM.bind_apply, getMach_apply, hfetch, pure_apply, pureM_apply,
      modifyMach_apply, hop,
      reduceIte, reduceCtorEq, or_false, false_or, or_self, ne_eq, not_false_eq_true,
      or_true, true_or, not_true, opcode2alu, Instr.getArg2T, Instr.getArg1,
      Instr.getArg2Reg, Instr.getArg2Const, Instr.getOut, ha1, ha2, liftDp, liftDpPure,
      latch_registers, latch_alu, execute_alu, aluOperations, latch_output, tickM,
      latch_program_counter, arg2Val, beq_self_eq_true, Bool.true_or, Bool.false_or,
      Bool.or_false, Bool.or_true, Bool.true_and, Bool.false_and, Bool.and_true,
      Bool.and_false, Bool.not_true, Bool.not_false, Bool.or_eq_true, beq_iff_eq,
      eq_self_iff_true, hz, decide_True,
      decide_False, decide_eq_true_eq, not_false_eq_true] <;>
    refine ⟨trivial, ?_, ?_⟩ <;>
    first
      | exact fun _ => RegBank.get_set_same _ _ _
      | exact fun h => h.elim

/-! ## The claims -/

/-- A datapath with an empty input buffer (nothing has been enqueued, the
pointer is at position zero). -/
def c1dp : DataPath :=
  { data_memory := [PyVal.ofInt 0]
    reg_file := { registers := RegBank.init, operand_1 := .R0, operand_2 := .R0, output := .R1 }
    alu := { left := 0, right := 0, zero_flag := true }
    alu_bus := 0, output_bus := 0, data_bus := 0
    input_buffer := [], input_pointer := 0, output_buffer := [], output_int := false }

/-- C1: the claim says that when an `IN` instruction is dispatched with no
unconsumed input item, `input()` fails with the input-exhausted condition
(`EOFError`) and `simulation()` terminates cleanly with the partial
output.  In the code, the list subscript raises `IndexError`, which the
`except KeyError` clause does not catch and `simulation` does not handle:
`input()` raises `IndexError` rather than `EOFError`, and the whole
simulation of a one-instruction `IN` program crashes with that
`IndexError` instead of returning. -/
theorem c1_input_exhausted_crash :
    (DataPath.input c1dp).2 = .error .indexError ∧
    (DataPath.input c1dp).2 ≠ .error .eofError ∧
    simulation [⟨.IN, none, some (.reg .R1), none⟩] [] [] 10 false = .error .indexError := by
  exact ⟨by decide, by decide, by decide⟩

/-- C2: the claim mandates truncated-toward-zero integer division for
`DIV` and a sign-of-dividend remainder for `MOD`.  The code's `DIV` is the
host language's true division — `7 / 2` evaluates to the non-integer
`7/2`, not to the truncated quotient `3` — and its `MOD` is the host
language's floor remainder, so `(-7) % 2` evaluates to `1` (sign of the
divisor), not to the sign-of-dividend remainder `-1`. -/
theorem c2_div_mod_eval :
    aluOperations .DIV (PyVal.ofInt 7) (PyVal.ofInt 2) = .ok ⟨7, 2⟩ ∧
    (⟨7, 2⟩ : PyVal).toRat = 7 / 2 ∧
    (⟨7, 2⟩ : PyVal).toRat ≠ (3 : ℚ) ∧
    (⟨7, 2⟩ : PyVal).den ≠ 1 ∧
    aluOperations .MOD (PyVal.ofInt (-7)) (PyVal.ofInt 2) = .ok (PyVal.ofInt 1) ∧
    (PyVal.ofInt (-7)).num < 0 ∧
    0 < (PyVal.ofInt 1).num ∧
    PyVal.ofInt 1 ≠ PyVal.ofInt (-1) := by
  refine ⟨by decide, ?_, ?_, by decide, by decide, by decide, by decide, by decide⟩
  · norm_num [PyVal.toRat]
  · norm_num [PyVal.toRat]

/-- A datapath whose ALU inputs are both `INT32_MIN`. -/
def c3dp : DataPath :=
  { data_memory := [PyVal.ofInt 0]
    reg_file := { registers := RegBank.init, operand_1 := .R0, operand_2 := .R0, output := .R1 }
    alu := { left := PyVal.ofInt (-2147483648), right := PyVal.ofInt (-2147483648),
             zero_flag := true }
    alu_bus := 0, output_bus := 0, data_bus := 0
    input_buffer := [], input_pointer := 0, output_buffer := [], output_int := false }

/-- C3: the claim says the wrap keeps results of in-range operands inside
`[INT32_MIN, INT32_MAX]`, and that an under-range raw result `r` is stored
as `INT32_MAX − (INT32_MIN − r)`.  The code runs the overflow loop before
the underflow loop and never returns to the first, and its underflow body
computes `INT32_MAX − (r + 2^31)`; `ADD` on the in-range operands
`INT32_MIN, INT32_MIN` stores `4294967295`, which is far above
`INT32_MAX`, while the claim's own formula would give `-1` at this raw
result. -/
theorem c3_wrap_out_of_range :
    (execute_alu .ADD c3dp).2 = .ok () ∧
    (execute_alu .ADD c3dp).1.alu_bus = PyVal.ofInt 4294967295 ∧
    (execute_alu .ADD c3dp).1.output_bus = PyVal.ofInt 4294967295 ∧
    ¬ (execute_alu .ADD c3dp).1.alu_bus ≤ (2147483647 : PyVal) ∧
    (2147483647 : Int) - ((-2147483648) - ((-2147483648) + (-2147483648))) = -1 ∧
    PyVal.ofInt 4294967295 ≠ PyVal.ofInt (-1) := by
  exact ⟨by decide, by decide, by decide, by decide, by decide, by decide⟩

/-- C4 (amended): a dispatched `JMP` always writes the wrapped branch
target to `PC`; `JE`/`JNE` first perform `CMP(regs[arg1], regs[R0])` and
branch exactly when the wrapped difference is zero (`JE`), respectively
nonzero (`JNE`); a non-taken branch instead increments `PC` by one; and
for a register value that is an integer inside the signed 32-bit range
the wrapped-difference-zero test coincides with `regs[arg1] = 0` (the
counterexample shows the two differ on out-of-range values such as
`4294967295`). -/
theorem c4_branch_semantics :
    (∀ (m : Machine) (i : Instr) (a2 : Arg2V),
      pyGet m.program (m.dp.reg_file.registers.get .PC) = .ok i →
      i.opcode = .JMP → i.arg2 = some a2 →
      (executePhase m).2 = .ok () ∧
      (executePhase m).1.dp.reg_file.registers.get .PC = execWrap (arg2Val a2 m)) ∧
    (∀ (m : Machine) (i : Instr) (r1 : Register) (a2 : Arg2V),
      pyGet m.program (m.dp.reg_file.registers.get .PC) = .ok i →
      i.opcode = .JE → i.arg1 = some r1 → i.arg2 = some a2 →
      (executePhase m).2 = .ok () ∧
      ((execWrap (m.dp.reg_file.registers.get r1 - m.dp.reg_file.registers.get .R0)).num = 0 →
        (executePhase m).1.dp.reg_file.registers.get .PC = execWrap (arg2Val a2 m)) ∧
      (¬ (execWrap (m.dp.reg_file.registers.get r1 -
          m.dp.reg_file.registers.get .R0)).num = 0 →
        (executePhase m).1.dp.reg_file.registers.get .PC =
          m.dp.reg_file.registers.get .PC + PyVal.ofInt 1)) ∧
    (∀ (m : Machine) (i : Instr) (r1 : Register) (a2 : Arg2V),
      pyGet m.program (m.dp.reg_file.registers.get .PC) = .ok i →
      i.opcode = .JNE → i.arg1 = some r1 → i.arg2 = some a2 →
      (executePhase m).2 = .ok () ∧
      ((execWrap (m.dp.reg_file.registers.get r1 - m.dp.reg_file.registers.get .R0)).num = 0 →
        (executePhase m).1.dp.reg_file.registers.get .PC =
          m.dp.reg_file.registers.get .PC + PyVal.ofInt 1) ∧
      (¬ (execWrap (m.dp.reg_file.registers.get r1 -
          m.dp.reg_file.registers.get .R0)).num = 0 →
        (executePhase m).1.dp.reg_file.registers.get .PC = execWrap (arg2Val a2 m))) ∧
    (∀ k : Int, -2147483648 ≤ k → k ≤ 2147483647 →
      ((execWrap (PyVal.ofInt k - PyVal.ofInt 0)).num = 0 ↔ k = 0)) := by
  refine ⟨jmp_dispatch, je_dispatch, jne_dispatch, ?_⟩
  intro k h1 h2
  have hnum : (PyVal.ofInt k - PyVal.ofInt 0).num = k := by simp
  have hden : (PyVal.ofInt k - PyVal.ofInt 0).den = 1 := by simp
  have hhi : ¬ (2147483647 : PyVal) < PyVal.ofInt k - PyVal.ofInt 0 := by
    simp only [PyVal.lt_def, PyVal.num_ofNat, PyVal.den_ofNat, hnum, hden]
    omega
  have hlo : ¬ PyVal.ofInt k - PyVal.ofInt 0 < -(2147483648 : PyVal) := by
    simp only [PyVal.lt_def, PyVal.num_ofNat, PyVal.den_ofNat, PyVal.num_neg,
      PyVal.den_neg, hnum, hden]
    omega
  rw [execWrap_id _ hhi hlo, hnum]

/-- A machine that loads `INT32_MIN` twice from data memory, adds the two
registers (the buggy wrap stores `4294967295`), then dispatches
`JE r3, 0`. -/
def c4m0 : Machine :=
  { dp :=
    { data_memory := [PyVal.ofInt 0, PyVal.ofInt (-2147483648), PyVal.ofInt 0]
      reg_file := { registers := RegBank.init, operand_1 := .R0, operand_2 := .R0, output := .R1 }
      alu := { left := 0, right := 0, zero_flag := true }
      alu_bus := 0, output_bus := 0, data_bus := 0
      input_buffer := [], input_pointer := 0, output_buffer := []
      output_int := false }
    program :=
      [ ⟨.LD, none, some (.const 1), some .R1⟩
        , ⟨.LD, none, some (.const 1), some .R2⟩
        , ⟨.ADD, some .R1, some (.reg .R2), some .R3⟩
        , ⟨.JE, some .R3, some (.const 0), none⟩ ]
    int_queue := [], interrupt_vector := [PyVal.ofInt 0], tick := 0
    is_interrupted := false, int_enabled := false, instr_cnt := 0, instr := none }

/-- C4 counterexample: after three steps of `c4m0` the machine is about to
dispatch `JE r3, 0` with `regs[r3] = 4294967295 ≠ 0`, yet the fourth step
takes the branch and writes the target `0` to `PC` — refuting "writes the
target to `PC` iff `regs[arg1]` equals 0" as stated. -/
theorem c4_je_counterexample :
    (runSteps 3 c4m0).2 = .ok () ∧
    (runSteps 3 c4m0).1.dp.reg_file.registers.get .PC = PyVal.ofInt 3 ∧
    c4m0.program.get? 3 = some ⟨.JE, some .R3, some (.const 0), none⟩ ∧
    (runSteps 3 c4m0).1.dp.reg_file.registers.get .R3 = PyVal.ofInt 4294967295 ∧
    PyVal.ofInt 4294967295 ≠ PyVal.ofInt 0 ∧
    (runSteps 4 c4m0).2 = .ok () ∧
    (runSteps 4 c4m0).1.dp.reg_file.registers.get .PC = PyVal.ofInt 0 := by
  exact ⟨by decide, by decide, by decide, by decide, by decide, by decide, by decide⟩

/-- A machine about to dispatch `JE r1, 5` with `regs[r1] = 0`. -/
def c4wm : Machine :=
  { dp :=
    { data_memory := [PyVal.ofInt 0]
      reg_file := { registers := RegBank.init, operand_1 := .R0, operand_2 := .R0, output := .R1 }
      alu := { left := 0, right := 0, zero_flag := true }
      alu_bus := 0, output_bus := 0, data_bus := 0
      input_buffer := [], input_pointer := 0, output_buffer := []
      output_int := false }
    program := [ ⟨.JE, some .R1, some (.const 5), none⟩ ]
    int_queue := [], interrupt_vector := [PyVal.ofInt 0], tick := 0
    is_interrupted := false, int_enabled := false, instr_cnt := 0, instr := none }

/-- Witness for C4: the amended branch semantics applied to the concrete
machine `c4wm` (a taken `JE`) and to the concrete in-range value `77`. -/
theorem c4_witness :
    (executePhase c4wm).2 = .ok () ∧
    (executePhase c4wm).1.dp.reg_file.registers.get .PC =
      execWrap (arg2Val (.const 5) c4wm) ∧
    ((execWrap (PyVal.ofInt 77 - PyVal.ofInt 0)).num = 0 ↔ (77 : Int) = 0) := by
  have h := c4_branch_semantics
  refine ⟨(h.2.1 c4wm ⟨.JE, some .R1, some (.const 5), none⟩ .R1 (.const 5)
      (by decide) rfl rfl rfl).1, ?_, ?_⟩
  · exact (h.2.1 c4wm ⟨.JE, some .R1, some (.const 5), none⟩ .R1 (.const 5)
      (by decide) rfl rfl rfl).2.1 (by decide)
  · exact h.2.2.2 77 (by decide) (by decide)

/-- A successful `IRET` dispatch clears the in-interrupt flag. -/
theorem iret_dispatch (m m2 : Machine) (i : Instr)
    (hfetch : pyGet m.program (m.dp.reg_file.registers.get .PC) = .ok i)
    (hop : i.opcode = .IRET)
    (hr : executePhase m = (m2, .ok ())) :
    m2.is_interrupted = false := by
  unfold executePhase at hr
  simp only [PyM.bind_apply, getMach_apply, hfetch, pure_apply, pureM_apply,
    modifyMach_apply, hop, reduceIte, reduceCtorEq, ne_eq, not_false_eq_true,
    liftDp, liftDpPure, latch_registers, latch_alu, execute_alu, aluOperations,
    latch_output, DataPath.read, tickM, throwPy] at hr
  rcases hrd : pyGet m.dp.data_memory
      (execWrap ((m.dp.reg_file.registers.set Register.SP
        (execWrap (m.dp.reg_file.registers.get Register.SP + PyVal.ofInt 1))).get
          Register.SP)) with e | v <;>
    rw [hrd] at hr <;>
    simp only [PyM.bind_apply, getMach_apply, pure_apply, pureM_apply, modifyMach_apply,
      liftDp, liftDpPure, latch_registers, latch_alu, execute_alu, aluOperations,
      latch_output, DataPath.read, tickM, throwPy, reduceIte, reduceCtorEq] at hr
  · exact absurd hr (by simp)
  · obtain ⟨h1, h2⟩ := Prod.mk.injEq .. |>.mp hr
    subst h1
    rfl

/-- A machine whose admission guard fails because interrupts are disabled
and the queue is empty. -/
def c5mOff : Machine :=
  { dp := c1dp
    program := [⟨.HLT, none, none, none⟩]
    int_queue := [], interrupt_vector := [PyVal.ofInt 0], tick := 0
    is_interrupted := false, int_enabled := false, instr_cnt := 0, instr := none }

/-- A machine inside an interrupt handler (`is_interrupted` raised), with a
pending interrupt already due and a non-`IRET` instruction at `PC`. -/
def c5mFlagOn : Machine :=
  { dp := c1dp
    program := [⟨.STI, none, none, none⟩]
    int_queue := [(0, 'z')], interrupt_vector := [PyVal.ofInt 0], tick := 4
    is_interrupted := true, int_enabled := true, instr_cnt := 0, instr := none }

/-- A machine whose guard passes: interrupts on, not in a handler, two
pending interrupts with keys `3` and `2`, tick already at `4`. -/
def c5mAdmit : Machine :=
  { dp :=
    { data_memory := [PyVal.ofInt 7, PyVal.ofInt 0, PyVal.ofInt 0]
      reg_file :=
        { registers := (RegBank.init.set .SP (PyVal.ofInt 1)).set .PC (PyVal.ofInt 5)
          operand_1 := .R0, operand_2 := .R0, output := .R1 }
      alu := { left := 0, right := 0, zero_flag := true }
      alu_bus := 0, output_bus := 0, data_bus := 0
      input_buffer := [], input_pointer := 0, output_buffer := [], output_int := false }
    program := [⟨.HLT, none, none, none⟩]
    int_queue := [(3, 'x'), (2, 'y')], interrupt_vector := [PyVal.ofInt 0], tick := 4
    is_interrupted := false, int_enabled := true, instr_cnt := 0, instr := none }

/-- A machine inside a handler about to dispatch `IRET` (the handler exit). -/
def c5mIret : Machine :=
  { dp :=
    { data_memory := [PyVal.ofInt 9, PyVal.ofInt 9, PyVal.ofInt 9]
      reg_file :=
        { registers := RegBank.init.set .SP (PyVal.ofInt 0)
          operand_1 := .R0, operand_2 := .R0, output := .R1 }
      alu := { left := 0, right := 0, zero_flag := true }
      alu_bus := 0, output_bus := 0, data_bus := 0
      input_buffer := [], input_pointer := 0, output_buffer := [], output_int := false }
    program := [⟨.IRET, none, none, none⟩]
    int_queue := [], interrupt_vector := [PyVal.ofInt 0], tick := 0
    is_interrupted := true, int_enabled := true, instr_cnt := 0, instr := none }

/-- C5: interrupt admission happens exactly under the four-part guard
(interrupts enabled, not already in a handler, queue non-empty, tick at or
past the minimum key); in particular a raised `is_interrupted` flag blocks
admission outright; an admitted interrupt is the earliest-key one (the
minimum over the queue keys, which is itself a key and a lower bound of
all keys, and the admitted payload is the one stored under it, appended to
the input buffer with the queue entry deleted); the flag stays raised
across every successfully dispatched non-`IRET` instruction; and a
successful `IRET` dispatch is what sets it back to false. -/
theorem c5_interrupt_admission :
    (∀ m : Machine, intGuard m = false → interruptPhase m = (m, .ok ())) ∧
    (∀ m : Machine, m.is_interrupted = true → interruptPhase m = (m, .ok ())) ∧
    (∀ (m m2 : Machine) (c : Char), intGuard m = true →
      dictGet m.int_queue (minKeys m.int_queue) = some c →
      interruptPhase m = (m2, .ok ()) →
      m2.is_interrupted = true ∧
      m2.int_queue = dictDel m.int_queue (minKeys m.int_queue) ∧
      m2.dp.input_buffer = m.dp.input_buffer ++ [c]) ∧
    (∀ q : List (Nat × Char), q ≠ [] →
      minKeys q ∈ q.map Prod.fst ∧ ∀ k ∈ q.map Prod.fst, minKeys q ≤ k) ∧
    (∀ (m : Machine) (i : Instr), m.is_interrupted = true →
      pyGet m.program (m.dp.reg_file.registers.get .PC) = .ok i →
      i.opcode ≠ .IRET →
      ((decode_and_execute_instruction m).1).is_interrupted = true) ∧
    (∀ (m m2 : Machine) (i : Instr),
      pyGet m.program (m.dp.reg_file.registers.get .PC) = .ok i →
      i.opcode = .IRET → m.is_interrupted = true →
      decode_and_execute_instruction m = (m2, .ok ()) →
      m2.is_interrupted = false) := by
  refine ⟨interruptPhase_no_admission, ?_, interruptPhase_admits, minKeys_spec, ?_, ?_⟩
  · intro m h
    exact interruptPhase_no_admission m (by simp [intGuard, h])
  · intro m i him hf hni
    have hph := interruptPhase_no_admission m (by simp [intGuard, him])
    simp only [decode_and_execute_instruction, PyM.bind_apply, hph]
    exact (executePhase_flag m i hf hni).trans him
  · intro m m2 i hf hop him hr
    have hph := interruptPhase_no_admission m (by simp [intGuard, him])
    simp only [decode_and_execute_instruction, PyM.bind_apply, hph] at hr
    exact iret_dispatch m m2 i hf hop hr

/-- Witness for C5: the admission facts applied to four concrete machines —
guard off, already-in-handler, a passing guard with queue keys `3` and `2`
(the key-`2` payload is admitted), and an `IRET` exit. -/
theorem c5_witness :
    interruptPhase c5mOff = (c5mOff, .ok ()) ∧
    interruptPhase c5mFlagOn = (c5mFlagOn, .ok ()) ∧
    ((interruptPhase c5mAdmit).1.is_interrupted = true ∧
      (interruptPhase c5mAdmit).1.int_queue =
        dictDel c5mAdmit.int_queue (minKeys c5mAdmit.int_queue) ∧
      (interruptPhase c5mAdmit).1.dp.input_buffer = c5mAdmit.dp.input_buffer ++ ['y']) ∧
    (minKeys [(3, 'x'), (2, 'y')] ∈ [(3, 'x'), (2, 'y')].map Prod.fst ∧
      ∀ k ∈ [(3, 'x'), (2, 'y')].map Prod.fst, minKeys [(3, 'x'), (2, 'y')] ≤ k) ∧
    ((decode_and_execute_instruction c5mFlagOn).1).is_interrupted = true ∧
    ((decode_and_execute_instruction c5mIret).1).is_interrupted = false := by
  have h := c5_interrupt_admission
  refine ⟨h.1 c5mOff (by decide), h.2.1 c5mFlagOn (by decide), ?_,
    h.2.2.2.1 [(3, 'x'), (2, 'y')] (by decide), ?_, ?_⟩
  · exact h.2.2.1 c5mAdmit ((interruptPhase c5mAdmit).1) 'y' (by decide) (by decide)
      (by decide)
  · exact h.2.2.2.2.1 c5mFlagOn ⟨.STI, none, none, none⟩ (by decide) (by decide)
      (by decide)
  · exact h.2.2.2.2.2 c5mIret ((decode_and_execute_instruction c5mIret).1)
      ⟨.IRET, none, none, none⟩ (by decide) (by decide) (by decide) (by decide)

/-- A machine whose first instruction is an `ADD` that selects `R0` as its
output register. -/
def c6mSmall : Machine :=
  { dp :=
    { data_memory := [PyVal.ofInt 0, PyVal.ofInt 0, PyVal.ofInt 0]
      reg_file := { registers := RegBank.init, operand_1 := .R0, operand_2 := .R0, output := .R1 }
      alu := { left := 0, right := 0, zero_flag := true }
      alu_bus := 0, output_bus := 0, data_bus := 0
      input_buffer := [], input_pointer := 0, output_buffer := [], output_int := false }
    program := [⟨.ADD, some .R1, some (.reg .R2), some .R0⟩]
    int_queue := [], interrupt_vector := [PyVal.ofInt 0], tick := 0
    is_interrupted := false, int_enabled := false, instr_cnt := 0, instr := none }

/-- The machine `simulation` builds for the one-`ADD`-to-`R0` program. -/
def c6m0full : Machine :=
  match buildMachine [⟨.ADD, some .R1, some (.reg .R2), some .R0⟩] [] [] false with
  | .ok m => m
  | .error _ => c6mSmall

/-- C6: selecting `R0` as the output register of `latch_registers` always
raises the write-to-read-only fault (`MemoryError`); the driver's handler
turns a run ending in `MemoryError` (and likewise `StopIteration`) into a
clean return of the output accumulated so far with the instruction and
tick counters, while any other exception propagates; `simulation` is that
handler run on the machine it builds; and end to end, simulating a program
whose first instruction writes to `R0` returns cleanly with empty output
and zero counters, no further instruction executed. -/
theorem c6_readonly_r0_clean_stop :
    (∀ (o1 o2 : Register) (dp : DataPath),
      (latch_registers o1 o2 .R0 dp).2 = .error .memoryError) ∧
    (∀ (limit : Nat) (m0 mf : Machine) (ic : Nat),
      simLoop limit m0 = (mf, .memoryError, ic) →
      runCaught limit m0 = .ok (mf.dp.output_buffer, ic, mf.tick)) ∧
    (∀ (limit : Nat) (m0 mf : Machine) (ic : Nat),
      simLoop limit m0 = (mf, .stopIteration, ic) →
      runCaught limit m0 = .ok (mf.dp.output_buffer, ic, mf.tick)) ∧
    (∀ (limit : Nat) (m0 mf : Machine) (ic : Nat) (e : PyError),
      simLoop limit m0 = (mf, e, ic) →
      e ≠ .eofError → e ≠ .memoryError → e ≠ .stopIteration →
      runCaught limit m0 = .error e) ∧
    (∀ (code : List Instr) (data : List Int) (q : List (Nat × Char)) (limit : Nat)
        (oi : Bool) (m0 : Machine),
      buildMachine code data q oi = .ok m0 →
      simulation code data q limit oi = runCaught limit m0) ∧
    simulation [⟨.ADD, some .R1, some (.reg .R2), some .R0⟩] [] [] 10 false =
      .ok ([], 0, 0) := by
  refine ⟨?_, ?_, ?_, ?_, ?_, by decide⟩
  · intro o1 o2 dp
    simp [latch_registers]
  · intro limit m0 mf ic h
    unfold runCaught
    rw [h]
  · intro limit m0 mf ic h
    unfold runCaught
    rw [h]
  · intro limit m0 mf ic e h hne1 hne2 hne3
    unfold runCaught
    rw [h]
    cases e <;>
      first
        | rfl
        | exact absurd rfl hne1
        | exact absurd rfl hne2
        | exact absurd rfl hne3
  · intro code data q limit oi m0 h
    unfold simulation
    rw [h]

/-- Witness for C6: the fault, the clean stop and the driver equation at
concrete machines — the `ADD`-to-`R0` machine stops with `MemoryError` at
instruction count `0`. -/
theorem c6_witness :
    (latch_registers .R1 .R2 .R0 c1dp).2 = .error .memoryError ∧
    runCaught 10 c6mSmall =
      .ok (((simLoop 10 c6mSmall).1).dp.output_buffer, 0, ((simLoop 10 c6mSmall).1).tick) ∧
    simulation [⟨.ADD, some .R1, some (.reg .R2), some .R0⟩] [] [] 10 false =
      runCaught 10 c6m0full := by
  have h := c6_readonly_r0_clean_stop
  refine ⟨h.1 .R1 .R2 c1dp, ?_, ?_⟩
  · exact h.2.1 10 c6mSmall ((simLoop 10 c6mSmall).1) 0 (by decide)
  · exact h.2.2.2.2.1 [⟨.ADD, some .R1, some (.reg .R2), some .R0⟩] [] [] 10 false
      c6m0full rfl

/-- C7: every successful translation ends in `HLT` — the code list of the
artifact `translate` returns is non-empty and its last record is the bare
`HLT` instruction appended after pass 2, whatever the source ended with. -/
theorem c7_translate_ends_hlt (script : String) (art : TransArt)
    (h : translate script = .ok art) :
    art.code ≠ [] ∧ art.code.getLast? = some ⟨.HLT, none, none, none⟩ := by
  simp only [translate] at h
  split at h
  · exact absurd h (by simp)
  · split at h
    · exact absurd h (by simp)
    · injection h with h2
      subst h2
      exact ⟨by simp, List.getLast?_concat _⟩

/-- The artifact `translate` returns for the two-line source
`section text` / `halt`: the translated `HLT` plus the appended one. -/
def c7art : TransArt :=
  { code := [⟨.HLT, none, none, none⟩, ⟨.HLT, none, none, none⟩], data := ["0"] }

/-- Witness for C7: the ends-in-`HLT` fact applied to the concrete source
`section text` / `halt`. -/
theorem c7_witness :
    c7art.code ≠ [] ∧ c7art.code.getLast? = some ⟨.HLT, none, none, none⟩ := by
  exact c7_translate_ends_hlt "section text\nhalt" c7art (by decide)

/-- C8: serialization round-trips — `read_code` applied to the JSON tree
`write_code` produces for any artifact returns exactly that artifact,
every data cell and every instruction field restored. -/
theorem c8_serialization_roundtrip (a : Artifact) : read_code (write_code a) = .ok a := by
  obtain ⟨code, data⟩ := a
  simp [read_code, write_code, pyDictGet, List.find?,
    mapExcept_roundtrip pyIntOfJson Json.int (fun _ => rfl),
    mapExcept_roundtrip parseInstr instrToJson parseInstr_instrToJson]

/-- A machine about to dispatch `CMP r1, 0 -> r2` with `regs[r1] = 5`. -/
def c9m0 : Machine :=
  { dp :=
    { data_memory := [PyVal.ofInt 0]
      reg_file :=
        { registers := RegBank.init.set .R1 (PyVal.ofInt 5)
          operand_1 := .R0, operand_2 := .R0, output := .R1 }
      alu := { left := 0, right := 0, zero_flag := true }
      alu_bus := 0, output_bus := 0, data_bus := 0
      input_buffer := [], input_pointer := 0, output_buffer := [], output_int := false }
    program := [⟨.CMP, some .R1, some (.const 0), some .R2⟩]
    int_queue := [], interrupt_vector := [PyVal.ofInt 0], tick := 0
    is_interrupted := false, int_enabled := false, instr_cnt := 0, instr := none }

/-- C9 (amended): a dispatched `CMP` computes the wrapped difference, sets
the zero flag accordingly, advances `PC` by one — and, far from discarding
the difference, writes it to the instruction's output register; every
register other than that output register and `PC` is untouched. -/
theorem c9_cmp_semantics (m : Machine) (i : Instr) (r1 : Register) (a2 : Arg2V)
    (ro : Register)
    (hfetch : pyGet m.program (m.dp.reg_file.registers.get .PC) = .ok i)
    (hop : i.opcode = .CMP) (ha1 : i.arg1 = some r1) (ha2 : i.arg2 = some a2)
    (ho : i.out = some ro) (hro0 : ro ≠ .R0) (hroPC : ro ≠ .PC) :
    (executePhase m).2 = .ok () ∧
    (executePhase m).1.dp.reg_file.registers.get ro =
      execWrap (m.dp.reg_file.registers.get r1 - arg2Val a2 m) ∧
    (executePhase m).1.dp.alu.zero_flag =
      decide ((execWrap (m.dp.reg_file.registers.get r1 - arg2Val a2 m)).num = 0) ∧
    (executePhase m).1.dp.reg_file.registers.get .PC =
      m.dp.reg_file.registers.get .PC + PyVal.ofInt 1 ∧
    (∀ r : Register, r ≠ ro → r ≠ .PC →
      (executePhase m).1.dp.reg_file.registers.get r = m.dp.reg_file.registers.get r) :=
  cmp_dispatch m i r1 a2 ro hfetch hop ha1 ha2 ho hro0 hroPC

/-- C9 counterexample: dispatching `CMP r1, 0 -> r2` on `c9m0` (where
`regs[r1] = 5`) overwrites `r2` — `0` before, `5` after — refuting "no
general-purpose register value is modified by the CMP"; the zero flag is
meanwhile clear, as the comparison dictates. -/
theorem c9_cmp_counterexample :
    c9m0.dp.reg_file.registers.get .R2 = PyVal.ofInt 0 ∧
    (runSteps 1 c9m0).2 = .ok () ∧
    (runSteps 1 c9m0).1.dp.reg_file.registers.get .R2 = PyVal.ofInt 5 ∧
    PyVal.ofInt 5 ≠ PyVal.ofInt 0 ∧
    (runSteps 1 c9m0).1.dp.alu.zero_flag = false := by
  exact ⟨by decide, by decide, by decide, by decide, by decide⟩

/-- Witness for C9: the amended `CMP` semantics applied to the concrete
machine `c9m0`. -/
theorem c9_witness :
    (executePhase c9m0).2 = .ok () ∧
    (executePhase c9m0).1.dp.reg_file.registers.get .R2 =
      execWrap (c9m0.dp.reg_file.registers.get .R1 - arg2Val (.const 0) c9m0) ∧
    (executePhase c9m0).1.dp.alu.zero_flag =
      decide ((execWrap (c9m0.dp.reg_file.registers.get .R1 -
        arg2Val (.const 0) c9m0)).num = 0) ∧
    (executePhase c9m0).1.dp.reg_file.registers.get .PC =
      c9m0.dp.reg_file.registers.get .PC + PyVal.ofInt 1 ∧
    (executePhase c9m0).1.dp.reg_file.registers.get .R3 =
      c9m0.dp.reg_file.registers.get .R3 := by
  have h := c9_cmp_semantics c9m0 ⟨.CMP, some .R1, some (.const 0), some .R2⟩
    .R1 (.const 0) .R2 (by decide) rfl rfl rfl rfl (by decide) (by decide)
  exact ⟨h.1, h.2.1, h.2.2.1, h.2.2.2.1, h.2.2.2.2 .R3 (by decide) (by decide)⟩

/-- A pass-1 state in which the label `ad` has already been recorded. -/
def c10st : Pass1State :=
  { labels := [("ad", "0")], data_labels := [], data := ["0"]
    instr_count := 1, data_count := 1, sec := some SectionState.TEXT }

/-- C10: the pass-1 duplicate-label test runs on every non-empty,
non-`section` line, label definition or not: whenever the line's first
token with its final character stripped matches a recorded label in either
namespace, the line fails with the duplicate-label error (whose message
drops the last two characters of the token); concretely, the source
`section text` / `ad:` / `add r1 r1 r1` fails with duplicate label `a`
although the `add` line defines no label. -/
theorem c10_duplicate_label_overreach :
    (∀ (st : Pass1State) (line : String) (terms : List String) (t0 : String),
      line ≠ "" →
      pass1Prep line = .ok terms →
      terms.head? = some t0 →
      t0 ≠ "section" →
      (assocMem st.labels (strDropLast t0 1) ||
        assocMem st.data_labels (strDropLast t0 1)) = true →
      pass1Line st line = .error (.duplicateLabel (strDropLast t0 2))) ∧
    translate (String.mk
      (['s', 'e', 'c', 't', 'i', 'o', 'n', ' ', 't', 'e', 'x', 't', Char.ofNat 10,
        'a', 'd', ':', Char.ofNat 10,
        'a', 'd', 'd', ' ', 'r', '1', ' ', 'r', '1', ' ', 'r', '1'])) =
      .error (.duplicateLabel "a") := by
  refine ⟨?_, by decide⟩
  intro st line terms t0 hne hprep hhead hnsec hdup
  have hbeq : (line == "") = false := beq_eq_false_iff_ne.mpr hne
  have hsec : (t0 == "section") = false := beq_eq_false_iff_ne.mpr hnsec
  simp only [pass1Line, hbeq, Bool.false_eq_true, reduceIte, hprep]
  simp only [pass1Body, hhead, hsec, Bool.false_eq_true, reduceIte, hdup]

/-- Witness for C10: the duplicate-label overreach applied to the concrete
state recording label `ad` and the ordinary mnemonic line `add r1 r1 r1`. -/
theorem c10_witness :
    pass1Line c10st "add r1 r1 r1" = .error (.duplicateLabel (strDropLast "add" 2)) := by
  exact c10_duplicate_label_overreach.1 c10st "add r1 r1 r1" ["add", "r1", "r1", "r1"]
    "add" (by decide) (by decide) (by decide) (by decide) (by decide)

end CA
